import Mathlib

/-!
Verification development for the isomorphic-translation engine in
`src/streamlit_app.py`.  The Python classes (Glosario, MatrizFuente,
MatrizTarget, the resolvers, Core and ProcesadorComandos) are shallowly
embedded as pure Lean functions; the mutable object state of each class is
threaded explicitly.  Python `dict`s are modelled as insertion-ordered
association lists, Python object aliasing between matrix cells and their
slots is modelled by index references (`SlotRef`) into the slot lists, and
Python operations that can raise (out-of-range list writes, mandatory
dictionary accesses) are modelled in `Option`.
-/

-- ══════════════════════════════════════════════════════════════
-- Enums (section 1 of the source)
-- ══════════════════════════════════════════════════════════════

inductive TokenStatus where
  | PENDIENTE
  | ASIGNADO
  | BLOQUEADO
deriving DecidableEq

inductive TokenCategoria where
  | NUCLEO
  | PARTICULA
  | LOCUCION
deriving DecidableEq

inductive CategoriaGramatical where
  | SUSTANTIVO
  | ADJETIVO
  | ADVERBIO
  | VERBO
  | PREPOSICION
  | CONJUNCION
  | PRONOMBRE
  | ARTICULO
  | DEMOSTRATIVO
deriving DecidableEq

inductive FuncRole where
  | COPULA
  | REGIMEN
  | DETERMINACION
  | NEXO_LOGICO
  | MARCA_CASUAL
  | ADVERBIAL
  | RELATIVO
deriving DecidableEq

inductive Reason where
  | NO_ROOT
  | GAP_DERIVATION
  | COLLISION
  | IDIOM
deriving DecidableEq

-- ══════════════════════════════════════════════════════════════
-- Python string primitives used by the embedded code
-- ══════════════════════════════════════════════════════════════

/-- Drops the characters satisfying `p` from both ends of a list
(`str.strip` on a character predicate). -/
def quitaExtremos (p : Char → Bool) (cs : List Char) : List Char :=
  ((cs.dropWhile p).reverse.dropWhile p).reverse

/-- Python `str.strip()`: removes surrounding whitespace. -/
def pyStrip (s : String) : String :=
  ⟨quitaExtremos Char.isWhitespace s.data⟩

/-- Python `str.strip("[]")`: removes surrounding `[` and `]` characters. -/
def pyStripCorchetes (s : String) : String :=
  ⟨quitaExtremos (fun c => c == '[' || c == ']') s.data⟩

/-- Splits a character list at the first occurrence of `sep`
(Python `str.split(sep, 1)`); `none` in the second component means the
separator does not occur. -/
def parteUnaVez (sep : Char) : List Char → List Char × Option (List Char)
  | [] => ([], none)
  | c :: rest =>
    if c = sep then ([], some rest)
    else
      let r := parteUnaVez sep rest
      (c :: r.1, r.2)

/-- Python `str.split(sep, 1)` on strings. -/
def pyParteUnaVez (s : String) (sep : Char) : String × Option String :=
  let r := parteUnaVez sep s.data
  (⟨r.1⟩, r.2.map (fun cs => (⟨cs⟩ : String)))

/-- Python `str.lower()` (character-wise). -/
def pyLower (s : String) : String :=
  ⟨s.data.map Char.toLower⟩

/-- Python `str.upper()` (character-wise). -/
def pyUpper (s : String) : String :=
  ⟨s.data.map Char.toUpper⟩

/-- Python truthiness of `x or y` for an optional string: the left value is
kept when it is a non-empty string, otherwise the right value is used
(`None` and `""` are both falsy in Python). -/
def pyOCadena (a : Option String) (b : String) : String :=
  match a with
  | some s => if s = "" then b else s
  | none => b

/-- Replaces an element of a list in place when the index is valid
(mutation `l[i] = f(l[i])` guarded by the caller); identity out of range. -/
def listaModifica {α : Type} (l : List α) (i : Nat) (f : α → α) : List α :=
  match l[i]? with
  | some a => l.set i (f a)
  | none => l

-- ══════════════════════════════════════════════════════════════
-- Data model (section 2 of the source)
-- ══════════════════════════════════════════════════════════════

/-- `SlotN`: a core-word slot.  The morphology fields of the Python
dataclass are never read or written by the embedded operations and are
omitted. -/
structure SlotN where
  token_src : String
  cat_src : CategoriaGramatical
  pos_index : Nat
  status : TokenStatus
  token_tgt : Option String
  locucion_id : Option String
deriving DecidableEq

def SlotN.nuevo (token : String) (cat : CategoriaGramatical) (pos : Nat) : SlotN :=
  ⟨token, cat, pos, TokenStatus.PENDIENTE, none, none⟩

def SlotN.es_bloqueado (s : SlotN) : Bool :=
  s.status == TokenStatus.BLOQUEADO

def SlotN.bloquear (s : SlotN) (loc_id : String) : SlotN :=
  { s with status := TokenStatus.BLOQUEADO, locucion_id := some loc_id }

/-- `SlotP`: a particle slot. -/
structure SlotP where
  token_src : String
  cat_src : CategoriaGramatical
  pos_index : Nat
  func_role : Option FuncRole
  status : TokenStatus
  token_tgt : Option String
  locucion_id : Option String
deriving DecidableEq

def SlotP.nuevo (token : String) (cat : CategoriaGramatical) (pos : Nat) : SlotP :=
  ⟨token, cat, pos, none, TokenStatus.PENDIENTE, none, none⟩

def SlotP.es_bloqueado (s : SlotP) : Bool :=
  s.status == TokenStatus.BLOQUEADO

def SlotP.bloquear (s : SlotP) (loc_id : String) : SlotP :=
  { s with status := TokenStatus.BLOQUEADO, locucion_id := some loc_id }

structure Locucion where
  id : String
  src : String
  componentes : List String
  posiciones : List Nat
  tgt : Option String
deriving DecidableEq

def Locucion.contiene_posicion (l : Locucion) (pos : Nat) : Bool :=
  l.posiciones.contains pos

/-- `min(self.posiciones) if self.posiciones else -1`; the result is an
integer because of the `-1` sentinel. -/
def Locucion.primera_posicion (l : Locucion) : Int :=
  match l.posiciones with
  | [] => -1
  | p :: ps => Int.ofNat (ps.foldl Nat.min p)

/-- A matrix cell's `slot` attribute is a Python object reference to an
element of `slots_n` or `slots_p` of the owning source matrix; it is
modelled as an index into the corresponding list so that in-place slot
mutations stay visible through the cell. -/
inductive SlotRef where
  | n (j : Nat)
  | p (j : Nat)
deriving DecidableEq

structure CeldaMatriz where
  pos : Nat
  token_src : String
  token_tgt : Option String
  tipo : String
  slot : Option SlotRef
deriving DecidableEq

def CeldaMatriz.nueva (pos : Nat) (token : String) : CeldaMatriz :=
  ⟨pos, token, none, "normal", none⟩

def CeldaMatriz.es_absorbido (c : CeldaMatriz) : Bool :=
  c.tipo == "absorbido"

def CeldaMatriz.es_nulo (c : CeldaMatriz) : Bool :=
  c.tipo == "nulo"

def CeldaMatriz.es_inyeccion (c : CeldaMatriz) : Bool :=
  c.tipo == "inyeccion"

/-- `MatrizFuente`; `locuciones` is the insertion-ordered dict of the
sentence's locutions. -/
structure MatrizFuente where
  celdas : List CeldaMatriz
  slots_n : List SlotN
  slots_p : List SlotP
  locuciones : List (String × Locucion)
deriving DecidableEq

def MatrizFuente.vacia : MatrizFuente := ⟨[], [], [], []⟩

def MatrizFuente.size (m : MatrizFuente) : Nat := m.celdas.length

def MatrizFuente.agregar_celda (m : MatrizFuente) (token : String) (pos : Nat) :
    MatrizFuente :=
  { m with celdas := m.celdas ++ [CeldaMatriz.nueva pos token] }

/-- Appends the slot and stores the object reference in the cell at its
position (`self.celdas[s.pos_index].slot = s`; the callers always pass an
in-range position). -/
def MatrizFuente.agregar_slot_n (m : MatrizFuente) (s : SlotN) : MatrizFuente :=
  let j := m.slots_n.length
  { m with
    slots_n := m.slots_n ++ [s]
    celdas := listaModifica m.celdas s.pos_index
      (fun c => { c with slot := some (SlotRef.n j) }) }

def MatrizFuente.agregar_slot_p (m : MatrizFuente) (s : SlotP) : MatrizFuente :=
  let j := m.slots_p.length
  { m with
    slots_p := m.slots_p ++ [s]
    celdas := listaModifica m.celdas s.pos_index
      (fun c => { c with slot := some (SlotRef.p j) }) }

/-- Blocks the slot referenced by the cell at `pos`, if any. -/
def MatrizFuente.bloquearSlotEn (m : MatrizFuente) (pos : Nat) (loc_id : String) :
    MatrizFuente :=
  match m.celdas[pos]? with
  | some c =>
    match c.slot with
    | some (SlotRef.n j) =>
      { m with slots_n := listaModifica m.slots_n j (fun s => s.bloquear loc_id) }
    | some (SlotRef.p j) =>
      { m with slots_p := listaModifica m.slots_p j (fun s => s.bloquear loc_id) }
    | none => m
  | none => m

/-- Registers a locution and blocks the slots at its in-range positions. -/
def MatrizFuente.agregar_locucion (m : MatrizFuente) (l : Locucion) : MatrizFuente :=
  let m' := { m with locuciones := m.locuciones ++ [(l.id, l)] }
  l.posiciones.foldl
    (fun acc pos => if pos < acc.celdas.length then acc.bloquearSlotEn pos l.id else acc)
    m'

def MatrizFuente.obtener_slot (m : MatrizFuente) (pos : Nat) : Option SlotRef :=
  match m.celdas[pos]? with
  | some c => c.slot
  | none => none

/-- First locution (in dict insertion order) whose positions contain `pos`. -/
def MatrizFuente.obtener_locucion_en_pos (m : MatrizFuente) (pos : Nat) :
    Option Locucion :=
  ((m.locuciones.map Prod.snd).find? (fun l => l.contiene_posicion pos))

/-- `MatrizTarget`: allocated with one fresh cell per position. -/
structure MatrizTarget where
  _size : Nat
  celdas : List CeldaMatriz
  inyecciones : List CeldaMatriz
deriving DecidableEq

def MatrizTarget.nueva (size : Nat) : MatrizTarget :=
  ⟨size, (List.range size).map (fun i => ⟨i, "", none, "normal", none⟩), []⟩

def MatrizTarget.size (m : MatrizTarget) : Nat := m._size

/-- In-place update of the cell at `pos`; `none` when the index is out of
range (Python would raise `IndexError`). -/
def MatrizTarget.modificaCelda (m : MatrizTarget) (pos : Nat)
    (f : CeldaMatriz → CeldaMatriz) : Option MatrizTarget :=
  match m.celdas[pos]? with
  | some c => some { m with celdas := m.celdas.set pos (f c) }
  | none => none

def MatrizTarget.marcar_absorbido (m : MatrizTarget) (pos : Nat) :
    Option MatrizTarget :=
  m.modificaCelda pos
    (fun c => { c with tipo := "absorbido", token_tgt := some "[ABSORBIDO]" })

def MatrizTarget.marcar_nulo (m : MatrizTarget) (pos : Nat) : Option MatrizTarget :=
  m.modificaCelda pos (fun c => { c with tipo := "nulo" })

def MatrizTarget.insertar_inyeccion (m : MatrizTarget) (token : String)
    (pos_ref : Nat) : MatrizTarget :=
  { m with inyecciones := m.inyecciones ++ [⟨pos_ref, "", some token, "inyeccion", none⟩] }

def MatrizTarget.obtener_token (m : MatrizTarget) (pos : Nat) : Option String :=
  match m.celdas[pos]? with
  | some c => c.token_tgt
  | none => none

def MatrizTarget.verificar_isomorfismo (m : MatrizTarget) (mtx_s : MatrizFuente) :
    Bool :=
  m._size == mtx_s.size

-- ══════════════════════════════════════════════════════════════
-- Glossary (section 4 of the source)
-- ══════════════════════════════════════════════════════════════

/-- A glossary entry.  `traducciones_por_funcion` is the per-role
alternate-translation dict; it is never populated by the embedded
operations. -/
structure EntradaGlosario where
  token_src : String
  categoria : TokenCategoria
  token_tgt : Option String
  status : TokenStatus
  margen : Nat
  ocurrencias : List Nat
  etiqueta : Option String
  traducciones_por_funcion : List (FuncRole × String)
deriving DecidableEq

def EntradaGlosario.nueva (token : String) (cat : TokenCategoria)
    (ocurrencias : List Nat) : EntradaGlosario :=
  ⟨token, cat, none, TokenStatus.PENDIENTE, 0, ocurrencias, none, []⟩

def EntradaGlosario.es_nucleo (e : EntradaGlosario) : Bool :=
  e.categoria == TokenCategoria.NUCLEO

def EntradaGlosario.es_particula (e : EntradaGlosario) : Bool :=
  e.categoria == TokenCategoria.PARTICULA

/-- Assignment into an insertion-ordered dict: replaces the value of an
existing key in place, otherwise appends the pair. -/
def dictPon {α : Type} (l : List (String × α)) (k : String) (v : α) :
    List (String × α) :=
  match l with
  | [] => [(k, v)]
  | (k', v') :: rest =>
    if k' = k then (k, v) :: rest else (k', v') :: dictPon rest k v

/-- Dict lookup. -/
def dictBusca {α : Type} (l : List (String × α)) (k : String) : Option α :=
  (l.find? (fun p => p.1 == k)).map Prod.snd

structure Glosario where
  entradas : List (String × EntradaGlosario)
  locuciones : List (String × Locucion)
  loc_counter : Nat
deriving DecidableEq

def Glosario.vacio : Glosario := ⟨[], [], 0⟩

def Glosario.obtener_entrada (g : Glosario) (token : String) :
    Option EntradaGlosario :=
  dictBusca g.entradas token

def Glosario.obtener_traduccion (g : Glosario) (token : String) : Option String :=
  match g.obtener_entrada token with
  | some e => e.token_tgt
  | none => none

/-- Registration loop of `fase_a_procesar`: `idx` is the running
`enumerate` counter over the classified-token batch. -/
def Glosario.fase_a_bucle (g : Glosario) (idx : Nat) :
    List (String × TokenCategoria × CategoriaGramatical) → Glosario
  | [] => g
  | (token, cat, _) :: rest =>
    let g' :=
      match g.obtener_entrada token with
      | none =>
        { g with entradas := dictPon g.entradas token (EntradaGlosario.nueva token cat [idx]) }
      | some e =>
        { g with entradas := dictPon g.entradas token { e with ocurrencias := e.ocurrencias ++ [idx] } }
    Glosario.fase_a_bucle g' (idx + 1) rest

/-- `fase_a_procesar(texto, tokens_clasificados)`; the `texto` argument is
unused by the source body, which always returns `True` (the constant
return value is omitted here). -/
def Glosario.fase_a_procesar (g : Glosario) (texto : String)
    (tokens_clasificados : List (String × TokenCategoria × CategoriaGramatical)) :
    Glosario :=
  Glosario.fase_a_bucle g 0 tokens_clasificados

/-- `fase_b_verificar_existencia` raises `TokenNoRegistradoError` for an
unregistered token; modelled with `Except`. -/
def Glosario.fase_b_verificar_existencia (g : Glosario) (token : String)
    (pos : Nat) : Except String Bool :=
  match g.obtener_entrada token with
  | none => Except.error ("Token " ++ token ++ " no existe")
  | some _ => Except.ok true

def Glosario.fase_b_verificar_bloqueo (g : Glosario) (token : String)
    (pos : Nat) : Option String :=
  (g.locuciones.find? (fun p => p.2.componentes.contains token)).map Prod.fst

/-- `fase_b_asignar`.  The strict core-synonymy validation block of the
source (`if entrada.es_nucleo() and entrada.token_tgt and entrada.token_tgt
!= tgt: if entrada.etiqueta != "FORZADO_USUARIO": pass`) is a no-op — the
comment in the source says a `SinonimiaError` would be raised in
production — so the assignment always goes through once the entry exists.
The unused `func_role` parameter of the source is kept. -/
def Glosario.fase_b_asignar (g : Glosario) (token : String) (tgt : String)
    (margen : Nat) (etiqueta : Option String) (func_role : Option FuncRole) :
    Glosario × Bool :=
  match g.obtener_entrada token with
  | none => (g, false)
  | some entrada =>
    let entrada' := { entrada with
      token_tgt := some tgt
      status := TokenStatus.ASIGNADO
      margen := margen
      etiqueta := etiqueta }
    ({ g with entradas := dictPon g.entradas token entrada' }, true)

/-- `actualizar_entrada`: unconditional forced overwrite; returns the
success flag and the occurrence count. -/
def Glosario.actualizar_entrada (g : Glosario) (token : String) (nueva : String) :
    Glosario × Bool × Nat :=
  match g.obtener_entrada token with
  | none => (g, false, 0)
  | some e =>
    let e' := { e with token_tgt := some nueva, etiqueta := some "FORZADO_USUARIO" }
    ({ g with entradas := dictPon g.entradas token e' }, true, e.ocurrencias.length)

def Glosario.agregar_entrada (g : Glosario) (token : String)
    (categoria : TokenCategoria) (tgt : Option String) : Glosario × Bool :=
  match g.obtener_entrada token with
  | some _ => (g, false)
  | none =>
    let e : EntradaGlosario := ⟨token, categoria, tgt,
      (if tgt.isSome then TokenStatus.ASIGNADO else TokenStatus.PENDIENTE), 0, [], none, []⟩
    ({ g with entradas := dictPon g.entradas token e }, true)

def Glosario.eliminar_entrada (g : Glosario) (token : String) :
    Glosario × Bool × Nat :=
  match g.obtener_entrada token with
  | some e =>
    ({ g with entradas := g.entradas.filter (fun p => !(p.1 == token)) },
     true, e.ocurrencias.length)
  | none => (g, false, 0)

/-- Pads a counter to four digits for the fresh locution identifier
(`f"LOC_{n:04d}"`). -/
def cuatroDigitos (n : Nat) : String :=
  let s := toString n
  if s.length < 4 then String.mk (List.replicate (4 - s.length) '0') ++ s else s

/-- `agregar_locucion`: creates the locution under a fresh identifier and
sets the status of every already-registered component entry to BLOQUEADO. -/
def Glosario.agregar_locucion (g : Glosario) (src : String)
    (componentes : List String) (posiciones : List Nat) (tgt : String) :
    Glosario × Locucion :=
  let contador := g.loc_counter + 1
  let loc : Locucion := ⟨"LOC_" ++ cuatroDigitos contador, src, componentes, posiciones, some tgt⟩
  let entradas' := componentes.foldl
    (fun acc c =>
      match dictBusca acc c with
      | some e => dictPon acc c { e with status := TokenStatus.BLOQUEADO }
      | none => acc)
    g.entradas
  ({ g with loc_counter := contador,
            entradas := entradas',
            locuciones := g.locuciones ++ [(loc.id, loc)] }, loc)

-- ══════════════════════════════════════════════════════════════
-- Transliteration and neologism formation (section 5 of the source)
-- ══════════════════════════════════════════════════════════════

/-- The fixed DIN-style character-substitution table `_MAPA`. -/
def MAPA : List (Char × Char) :=
  [('ء', 'ʾ'), ('ا', 'ā'), ('ب', 'b'), ('ت', 't'), ('ث', 'ṯ'), ('ج', 'ǧ'),
   ('ح', 'ḥ'), ('خ', 'ḫ'), ('د', 'd'), ('ذ', 'ḏ'), ('ر', 'r'), ('ز', 'z'),
   ('س', 's'), ('ش', 'š'), ('ص', 'ṣ'), ('ض', 'ḍ'), ('ط', 'ṭ'), ('ظ', 'ẓ'),
   ('ع', 'ʿ'), ('غ', 'ġ'), ('ف', 'f'), ('ق', 'q'), ('ك', 'k'), ('ل', 'l'),
   ('م', 'm'), ('ن', 'n'), ('ه', 'h'), ('و', 'w'), ('ي', 'y'), ('ة', 'a'),
   ('ى', 'ā')]

/-- `SistemaTransliteracion.transliterar`: substitutes each character
through the table, keeping unmapped characters. -/
def transliterar (texto : String) : String :=
  ⟨texto.data.map (fun c => (MAPA.lookup c).getD c)⟩

/-- `GeneradorNeologismos.radical`: transliterate, strip trailing hyphens,
append the (simplified) suffix `-ado`.  The grammatical-category argument
is unused by the source body. -/
def GeneradorNeologismos.radical (token : String) (cat : CategoriaGramatical) :
    String :=
  ⟨((transliterar token).data.reverse.dropWhile (fun c => c == '-')).reverse⟩ ++ "-ado"

def GeneradorNeologismos.derivativo (raiz_es : String) (cat : CategoriaGramatical) :
    String :=
  raiz_es ++ "-ado"

-- ══════════════════════════════════════════════════════════════
-- Classifier (section 3 of the source)
-- ══════════════════════════════════════════════════════════════

def ClasificadorGramatical.PREPOSICIONES : List String :=
  ["bi", "li", "fi", "min", "ʿan", "ʿalā", "ilā", "maʿa", "bayna"]

def ClasificadorGramatical.CONJUNCIONES : List String :=
  ["wa", "fa", "aw", "inna", "anna"]

def ClasificadorGramatical.PRONOMBRES : List String :=
  ["huwa", "hiya", "hum", "anta", "ana"]

/-- `clasificar`: closed-set lookup on the lower-cased token; everything
unmatched is a NUCLEO/SUSTANTIVO. -/
def ClasificadorGramatical.clasificar (token : String) :
    TokenCategoria × CategoriaGramatical :=
  let t := pyLower token
  if ClasificadorGramatical.PREPOSICIONES.contains t then
    (TokenCategoria.PARTICULA, CategoriaGramatical.PREPOSICION)
  else if ClasificadorGramatical.CONJUNCIONES.contains t then
    (TokenCategoria.PARTICULA, CategoriaGramatical.CONJUNCION)
  else if ClasificadorGramatical.PRONOMBRES.contains t then
    (TokenCategoria.PARTICULA, CategoriaGramatical.PRONOMBRE)
  else
    (TokenCategoria.NUCLEO, CategoriaGramatical.SUSTANTIVO)

-- ══════════════════════════════════════════════════════════════
-- Resolvers (section 6 of the source)
-- ══════════════════════════════════════════════════════════════

/-- Result dictionary of `ProcesadorCasosDificiles.procesar`. -/
structure ResCasoDificil where
  n_base : String
  reason : Reason
  exito : Bool
deriving DecidableEq

/-- `ProcesadorCasosDificiles.procesar`: only the NO_ROOT and IDIOM reasons
change the base form; every other reason (COLLISION, GAP_DERIVATION)
returns the token unchanged, and the `candidatos` argument is never read.
The function neither reads nor writes the glossary. -/
def ProcesadorCasosDificiles.procesar (slot_n : SlotN) (reason : Reason)
    (glosario : Glosario) (candidatos : Option (List String)) : ResCasoDificil :=
  let token := slot_n.token_src
  let n_base :=
    if reason = Reason.NO_ROOT then GeneradorNeologismos.radical token slot_n.cat_src
    else if reason = Reason.IDIOM then transliterar token
    else token
  ⟨n_base, reason, true⟩

/-- The fixed etymological lexicon of `ProcesadorNucleos`. -/
def ProcesadorNucleos.etimologia : List (String × String) :=
  [("kitab", "libro"), ("qalb", "corazón"), ("aql", "intelecto"), ("ilm", "ciencia")]

/-- Result dictionary of `ProcesadorNucleos.procesar`: `token_tgt` is
`res.get("token_tgt")`, `restart` is the truthiness of
`res.get("restart")`. -/
structure ResNucleo where
  token_tgt : Option String
  restart : Bool
deriving DecidableEq

/-- `ProcesadorNucleos.procesar`: glossary cache (status ASIGNADO) first,
then the fixed lexicon keyed on the lower-cased token, then the
difficult-case fallback with reason NO_ROOT, which signals `restart`. -/
def ProcesadorNucleos.procesar (slot_n : SlotN) (glosario : Glosario) : ResNucleo :=
  let token := pyLower slot_n.token_src
  match glosario.obtener_entrada slot_n.token_src with
  | some entrada =>
    if entrada.status = TokenStatus.ASIGNADO then
      ⟨entrada.token_tgt, false⟩
    else
      match ProcesadorNucleos.etimologia.lookup token with
      | some v => ⟨some v, false⟩
      | none =>
        let res_p6 := ProcesadorCasosDificiles.procesar slot_n Reason.NO_ROOT glosario none
        ⟨some res_p6.n_base, true⟩
  | none =>
    match ProcesadorNucleos.etimologia.lookup token with
    | some v => ⟨some v, false⟩
    | none =>
      let res_p6 := ProcesadorCasosDificiles.procesar slot_n Reason.NO_ROOT glosario none
      ⟨some res_p6.n_base, true⟩

/-- The fixed particle table of `ProcesadorParticulas`. -/
def ProcesadorParticulas.dic : List (String × String) :=
  [("wa", "y"), ("fi", "en"), ("min", "de"), ("ala", "sobre"), ("bi", "con"), ("al", "el")]

/-- `ProcesadorParticulas.procesar` returns `{"candidatos": [tgt]}`:
the table value for the lower-cased token, or the token itself. -/
def ProcesadorParticulas.procesar (slot_p : SlotP) (mtx_s : MatrizFuente)
    (glosario : Glosario) : List String :=
  [(ProcesadorParticulas.dic.lookup (pyLower slot_p.token_src)).getD slot_p.token_src]

-- ══════════════════════════════════════════════════════════════
-- Core (section 7 of the source)
-- ══════════════════════════════════════════════════════════════

structure CoreResult where
  exito : Bool
  mtx_t : Option MatrizTarget
  mensaje : String
deriving DecidableEq

/-- One step of phase F2 (core slots).  A blocked slot only marks its
target cell as "locucion"; otherwise the core-word resolver runs, a
`restart` result is written back into the glossary as an AUTO_NEOLOGISMO
(`res["token_tgt"]` is a mandatory dict access), and the slot records the
resolved target in place. -/
def Core.f2_paso (g : Glosario) (mt : MatrizTarget) (slot_n : SlotN) :
    Option (MatrizTarget × SlotN × Glosario) :=
  if slot_n.es_bloqueado then
    (mt.modificaCelda slot_n.pos_index (fun c => { c with tipo := "locucion" })).map
      (fun mt' => (mt', slot_n, g))
  else
    let res := ProcesadorNucleos.procesar slot_n g
    let gNuevo : Option Glosario :=
      if res.restart then
        res.token_tgt.map
          (fun t => (g.fase_b_asignar slot_n.token_src t 1 (some "AUTO_NEOLOGISMO") none).1)
      else some g
    gNuevo.map (fun g' => (mt, { slot_n with token_tgt := res.token_tgt }, g'))

/-- Phase F2 over the core-slot list, rebuilding the mutated slots in
order. -/
def Core.faseNucleos (g : Glosario) (mt : MatrizTarget) :
    List SlotN → Option (MatrizTarget × List SlotN × Glosario)
  | [] => some (mt, [], g)
  | s :: rest =>
    (Core.f2_paso g mt s).bind (fun x =>
      (Core.faseNucleos x.2.2 x.1 rest).map (fun y => (y.1, x.2.1 :: y.2.1, y.2.2)))

/-- The pure cell transformation applied by one iteration of phase F3 at
position `i`: copy the source token, then either materialize / absorb a
covering locution or copy the (post-F2) resolved target of a core slot.
An unresolvable slot reference has no Python counterpart (the cell holds
the object itself) and leaves the cell unchanged. -/
def Core.f3_celda (mtx_s : MatrizFuente) (i : Nat) (celda_s : CeldaMatriz)
    (c : CeldaMatriz) : CeldaMatriz :=
  let c := { c with token_src := celda_s.token_src }
  match mtx_s.obtener_locucion_en_pos i with
  | some loc =>
    if Int.ofNat i = loc.primera_posicion then
      { c with token_tgt := loc.tgt, tipo := "locucion" }
    else
      { c with tipo := "absorbido", token_tgt := some "[ABSORBIDO]" }
  | none =>
    match celda_s.slot with
    | some (SlotRef.n j) =>
      match mtx_s.slots_n[j]? with
      | some sn => { c with token_tgt := sn.token_tgt }
      | none => c
    | _ => c

/-- Phase F3: `for i, celda_s in enumerate(mtx_s.celdas)`, mutating the
target cell at the same index. -/
def Core.faseMapeo (mtx_s : MatrizFuente) : Nat → List CeldaMatriz →
    MatrizTarget → Option MatrizTarget
  | _, [], mt => some mt
  | i, celda_s :: rest, mt =>
    (mt.modificaCelda i (Core.f3_celda mtx_s i celda_s)).bind
      (Core.faseMapeo mtx_s (i + 1) rest)

/-- One step of phase F4 (particle slots): skip blocked slots, otherwise
write the first candidate (`cands[0]`, a mandatory list access) into the
target cell at the slot's position. -/
def Core.f4_paso (mtx_s : MatrizFuente) (g : Glosario) (mt : MatrizTarget)
    (slot_p : SlotP) : Option MatrizTarget :=
  if slot_p.es_bloqueado then some mt
  else
    match (ProcesadorParticulas.procesar slot_p mtx_s g).head? with
    | none => none
    | some cand => mt.modificaCelda slot_p.pos_index (fun c => { c with token_tgt := some cand })

def Core.faseParticulas (mtx_s : MatrizFuente) (g : Glosario) (mt : MatrizTarget) :
    List SlotP → Option MatrizTarget
  | [] => some mt
  | sp :: rest =>
    (Core.f4_paso mtx_s g mt sp).bind
      (fun mt' => Core.faseParticulas mtx_s g mt' rest)

/-- `Core.procesar_oracion`: allocates the target matrix with the source
matrix's size, runs phases F2 (core words), F3 (mapping/locutions) and F4
(particles), and returns `CoreResult(True, mtx_t, "OK")` together with the
mutated source matrix and glossary. -/
def Core.procesar_oracion (g : Glosario) (mtx_s : MatrizFuente) :
    Option (CoreResult × MatrizFuente × Glosario) :=
  let mt0 := MatrizTarget.nueva mtx_s.size
  (Core.faseNucleos g mt0 mtx_s.slots_n).bind (fun x =>
    let mtx_s' := { mtx_s with slots_n := x.2.1 }
    (Core.faseMapeo mtx_s' 0 mtx_s'.celdas x.1).bind (fun mt2 =>
      (Core.faseParticulas mtx_s' x.2.2 mt2 mtx_s'.slots_p).map (fun mt3 =>
        (⟨true, some mt3, "OK"⟩, mtx_s', x.2.2))))

/-- `Core.serializar_resultado` on a target matrix: space-join, in
position order, `c.token_tgt or f"[{c.token_src}]"` over the non-absorbed
cells.  (The Python method's `mtx_t or self.mtx_t` argument plumbing and
the empty-string result for a missing matrix are omitted.) -/
def Core.serializar_resultado (mtx_t : MatrizTarget) : String :=
  String.intercalate " "
    ((mtx_t.celdas.filter (fun c => !c.es_absorbido)).map
      (fun c => pyOCadena c.token_tgt ("[" ++ c.token_src ++ "]")))

-- ══════════════════════════════════════════════════════════════
-- Per-sentence pipeline of SistemaTraduccion.traducir (section 10)
-- ══════════════════════════════════════════════════════════════

/-- The source-matrix construction loop of `SistemaTraduccion.traducir`:
one cell per token, plus a core or particle slot according to the
classifier. -/
def construirMatrizBucle (m : MatrizFuente) (k : Nat) :
    List String → MatrizFuente
  | [] => m
  | t :: rest =>
    let m1 := m.agregar_celda t k
    let cg := ClasificadorGramatical.clasificar t
    let m2 :=
      if cg.1 = TokenCategoria.NUCLEO then
        m1.agregar_slot_n (SlotN.nuevo t cg.2 k)
      else
        m1.agregar_slot_p (SlotP.nuevo t cg.2 k)
    construirMatrizBucle m2 (k + 1) rest

def construirMatrizFuente (tokens : List String) : MatrizFuente :=
  construirMatrizBucle MatrizFuente.vacia 0 tokens

/-- The lexical-registration pass of `SistemaTraduccion.traducir`: every
token is classified and the batch is registered through
`fase_a_procesar`. -/
def registrarTokens (g : Glosario) (tokens : List String) : Glosario :=
  g.fase_a_procesar (String.intercalate " " tokens)
    (tokens.map (fun t =>
      let cg := ClasificadorGramatical.clasificar t
      (t, cg.1, cg.2)))

-- ══════════════════════════════════════════════════════════════
-- Command processor (section 9 of the source)
-- ══════════════════════════════════════════════════════════════

/-- `ResultadoComando`; the always-`None` `datos` payload is omitted. -/
structure ResultadoComando where
  exito : Bool
  mensaje : String
  requiere_confirmacion : Bool
deriving DecidableEq

/-- The dispatch-relevant part of the `COMANDOS` dictionary, in insertion
order: canonical key and alias list (the display-only description/usage
fields are omitted). -/
def COMANDOS : List (String × List String) :=
  [("GLOSARIO", ["glosario", "g"]),
   ("LOCUCIONES", ["locuciones"]),
   ("ACTUALIZA", ["actualiza"]),
   ("AÑADE", ["añade"]),
   ("AÑADE_LOCUCION", ["add loc"]),
   ("ELIMINA", ["elimina"]),
   ("PAUSA", ["pausa"]),
   ("CONTINUAR", ["continuar"]),
   ("REINICIAR", ["reiniciar"]),
   ("AYUDA", ["ayuda", "?"]),
   ("ESTADO", ["estado"]),
   ("EXPORTAR_GLOSARIO", ["exportar glosario"])]

/-- The pending two-step confirmation closure `self._confirmacion`,
reified as the action it would perform. -/
inductive Confirmacion where
  | actualizar (token valor : String)
  | eliminar (token : String)
  | reiniciar
deriving DecidableEq

/-- The embedded state of `ProcesadorComandos`: the glossary and the
single pending confirmation.  (`config`, `estado` and the UI callbacks
only feed display strings and flags outside the verified core.) -/
structure ProcesadorComandos where
  glosario : Glosario
  confirmacion : Option Confirmacion
deriving DecidableEq

/-- Executes a stored confirmation closure.  In the source the closures
are `self.glosario.<op>(...) and ResultadoComando(True, msg)`; the left
operand is a (always truthy) tuple or a callback result, so the message is
returned unconditionally while the glossary operation itself decides
whether anything is mutated.  The REINICIAR callback re-initializes the
surrounding system and leaves the glossary object untouched. -/
def ejecutarConfirmacion (g : Glosario) : Confirmacion → Glosario × ResultadoComando
  | Confirmacion.actualizar t v =>
    ((g.actualizar_entrada t v).1, ⟨true, "Actualizado", false⟩)
  | Confirmacion.eliminar t =>
    ((g.eliminar_entrada t).1, ⟨true, "Eliminado", false⟩)
  | Confirmacion.reiniciar => (g, ⟨true, "Reiniciado", false⟩)

/-- `_procesar_confirmacion`: an affirmative answer (case-insensitive
"si"/"s"/"yes"/"y") pops and runs the pending closure; anything else
cancels it without touching the glossary. -/
def ProcesadorComandos.procesar_confirmacion (pc : ProcesadorComandos)
    (c : Confirmacion) (txt : String) : ProcesadorComandos × ResultadoComando :=
  if ["si", "s", "yes", "y"].contains (pyLower txt) then
    let r := ejecutarConfirmacion pc.glosario c
    (⟨r.1, none⟩, r.2)
  else
    (⟨pc.glosario, none⟩, ⟨true, "Cancelado", false⟩)

/-- Splits `AÑADE LOCUCION` arguments into components:
`s.replace("-", " ").split()`. -/
def separarComponentes (s : String) : List String :=
  (((s.data.map (fun c => if c = '-' then ' ' else c)).splitOnP
      Char.isWhitespace).map (fun cs => (⟨cs⟩ : String))).filter (fun w => !(w == ""))

/-- `ProcesadorComandos.procesar`.  A pending confirmation intercepts the
input; otherwise the input is stripped of brackets, split into command
word and arguments, resolved through the `COMANDOS` aliases and
dispatched.  Branches that only render state (GLOSARIO, LOCUCIONES,
ESTADO, AYUDA, EXPORTAR_GLOSARIO) and the PAUSA/CONTINUAR callbacks do not
touch the glossary or the pending action; their display strings depend on
formatting helpers (including a floating-point progress figure) outside
the embedded state and are modelled as the source's fixed message where it
has one and as the empty message otherwise. -/
def ProcesadorComandos.procesar (pc : ProcesadorComandos) (entrada : String) :
    ProcesadorComandos × ResultadoComando :=
  let entrada := pyStrip entrada
  match pc.confirmacion with
  | some c => pc.procesar_confirmacion c entrada
  | none =>
    let partes := pyParteUnaVez (pyStripCorchetes entrada) ' '
    let cmd_raw := pyUpper partes.1
    let args := (partes.2.getD "")
    let cmd :=
      match COMANDOS.find? (fun p => cmd_raw == p.1 || p.2.contains (pyLower cmd_raw)) with
      | some p => p.1
      | none => cmd_raw
    if cmd = "GLOSARIO" then (pc, ⟨true, "", false⟩)
    else if cmd = "LOCUCIONES" then (pc, ⟨true, "", false⟩)
    else if cmd = "ESTADO" then (pc, ⟨true, "", false⟩)
    else if cmd = "AYUDA" then (pc, ⟨true, "", false⟩)
    else if cmd = "ACTUALIZA" then
      match (pyParteUnaVez args '=') with
      | (_, none) => (pc, ⟨false, "Uso: ACTUALIZA token = valor", false⟩)
      | (t, some v) =>
        let t := pyStrip t
        let v := pyStrip v
        (⟨pc.glosario, some (Confirmacion.actualizar t v)⟩,
         ⟨true, "¿Cambiar " ++ t ++ " a " ++ v ++ "?", true⟩)
    else if cmd = "AÑADE" then
      match (pyParteUnaVez args '=') with
      | (_, none) => (pc, ⟨false, "Uso: AÑADE token = valor", false⟩)
      | (t, some v) =>
        let t := pyStrip t
        let v := pyStrip v
        let r := pc.glosario.agregar_entrada t TokenCategoria.NUCLEO (some v)
        if r.2 then (⟨r.1, none⟩, ⟨true, "Añadido: " ++ t ++ " -> " ++ v, false⟩)
        else (⟨r.1, none⟩, ⟨false, "Token ya existe", false⟩)
    else if cmd = "AÑADE_LOCUCION" then
      match (pyParteUnaVez args '=') with
      | (_, none) => (pc, ⟨false, "Uso: AÑADE LOCUCION src = valor", false⟩)
      | (s, some t) =>
        let s := pyStrip s
        let t := pyStrip t
        let r := pc.glosario.agregar_locucion s (separarComponentes s) [] t
        (⟨r.1, none⟩, ⟨true, "Locución añadida: " ++ s, false⟩)
    else if cmd = "ELIMINA" then
      let t := pyStrip args
      (⟨pc.glosario, some (Confirmacion.eliminar t)⟩, ⟨true, "¿Eliminar " ++ t ++ "?", true⟩)
    else if cmd = "PAUSA" then (pc, ⟨true, "Pausado", false⟩)
    else if cmd = "CONTINUAR" then (pc, ⟨true, "Continuando", false⟩)
    else if cmd = "REINICIAR" then
      (⟨pc.glosario, some Confirmacion.reiniciar⟩, ⟨true, "¿Reiniciar sistema?", true⟩)
    else if cmd = "EXPORTAR_GLOSARIO" then (pc, ⟨true, "", false⟩)
    else (pc, ⟨false, "Comando desconocido", false⟩)

-- ══════════════════════════════════════════════════════════════
-- Spec-side definitions and claim projections
-- ══════════════════════════════════════════════════════════════

/-- Serialization exactly as the specification words it: the text of every
non-absorbed cell, with the bracketed source token substituted only for a
cell whose target was never assigned. -/
def serializacionSegunEspec (mt : MatrizTarget) : String :=
  String.intercalate " "
    ((mt.celdas.filter (fun c => !c.es_absorbido)).map
      (fun c =>
        match c.token_tgt with
        | some t => t
        | none => "[" ++ c.token_src ++ "]"))

/-- Serialization as the specification amended by the code's behaviour: the
bracketed source token is substituted both when the target was never
assigned and when the assigned target is the empty string. -/
def serializacionEspecEnmendada (mt : MatrizTarget) : String :=
  String.intercalate " "
    ((mt.celdas.filter (fun c => !c.es_absorbido)).map
      (fun c =>
        match c.token_tgt with
        | some t => if t = "" then "[" ++ c.token_src ++ "]" else t
        | none => "[" ++ c.token_src ++ "]"))

/-- The word list the serializer joins: one entry per non-absorbed cell. -/
def palabras (mt : MatrizTarget) : List String :=
  (mt.celdas.filter (fun c => !c.es_absorbido)).map
    (fun c => pyOCadena c.token_tgt ("[" ++ c.token_src ++ "]"))

/-- The target matrix inside an orchestrator result. -/
def matrizResultado (r : Option (CoreResult × MatrizFuente × Glosario)) :
    Option MatrizTarget :=
  match r with
  | some (cr, _, _) => cr.mtx_t
  | none => none

/-- The glossary state after an orchestrator run. -/
def glosarioResultado (r : Option (CoreResult × MatrizFuente × Glosario)) :
    Option Glosario :=
  match r with
  | some (_, _, g) => some g
  | none => none

/-- Number of cells of the produced target matrix. -/
def longitudObjetivo (r : Option (CoreResult × MatrizFuente × Glosario)) :
    Option Nat :=
  (matrizResultado r).map (fun mt => mt.celdas.length)

/-- Success flag and status message of the produced result bundle. -/
def indicadorResultado (r : Option (CoreResult × MatrizFuente × Glosario)) :
    Option (Bool × String) :=
  match r with
  | some (cr, _, _) => some (cr.exito, cr.mensaje)
  | none => none

/-- The produced target cell at a position. -/
def celdaResultado (r : Option (CoreResult × MatrizFuente × Glosario)) (p : Nat) :
    Option CeldaMatriz :=
  match matrizResultado r with
  | some mt => mt.celdas[p]?
  | none => none

/-- Target text and cell type of the produced target cell at a position. -/
def contenidoCelda (r : Option (CoreResult × MatrizFuente × Glosario)) (p : Nat) :
    Option (Option String × String) :=
  (celdaResultado r p).map (fun c => (c.token_tgt, c.tipo))

/-- The serializer's word list for the produced target matrix. -/
def palabrasResultado (r : Option (CoreResult × MatrizFuente × Glosario)) :
    List String :=
  match matrizResultado r with
  | some mt => palabras mt
  | none => []

/-- Status of a glossary entry after an orchestrator run. -/
def estadoEntrada (r : Option (CoreResult × MatrizFuente × Glosario))
    (token : String) : Option TokenStatus :=
  match glosarioResultado r with
  | some g => (g.obtener_entrada token).map (fun e => e.status)
  | none => none

/-- The effective core-word resolution of a token against a glossary in
which the token is not yet ASSIGNED: fixed-lexicon value, with the
neologism generator as fallback (the slot category built by the pipeline
is always SUSTANTIVO and is ignored by the generator anyway). -/
def resolverNucleo (t : String) : String :=
  match ProcesadorNucleos.etimologia.lookup (pyLower t) with
  | some v => v
  | none => GeneradorNeologismos.radical t CategoriaGramatical.SUSTANTIVO

/-- The particle resolution of a token: fixed-table value or the token
itself. -/
def resolverParticula (t : String) : String :=
  (ProcesadorParticulas.dic.lookup (pyLower t)).getD t

/-- Pipeline resolution of a token according to its classification. -/
def resolverToken (t : String) : String :=
  if (ClasificadorGramatical.clasificar t).1 = TokenCategoria.PARTICULA then
    resolverParticula t
  else resolverNucleo t

/-- Glossary keys, in insertion order. -/
def Glosario.claves (g : Glosario) : List String := g.entradas.map Prod.fst

/-- Two optional glossary entries agree up to the multiset structure of
their occurrence lists: both absent, or both present with the same
occurrence set and identical remaining fields. -/
def ocurrenciasEquivalentes :
    Option EntradaGlosario → Option EntradaGlosario → Prop
  | none, none => True
  | some e2, some e1 =>
    e2.ocurrencias.toFinset = e1.ocurrencias.toFinset ∧
    ({ e2 with ocurrencias := [] } : EntradaGlosario) = { e1 with ocurrencias := [] }
  | _, _ => False

/-- A command argument with no whitespace, `=` or bracket characters, so
that the command parser recovers it verbatim. -/
def esLimpio (s : String) : Bool :=
  !(s == "") &&
    s.data.all (fun c => !c.isWhitespace && !(c == '=') && !(c == '[') && !(c == ']'))

/-- A non-empty token with no space character. -/
def tokenLimpio (t : String) : Bool :=
  !(t == "") && t.data.all (fun c => !(c == ' '))

/-- Invariant used for the locution-free pipeline characterization: every
ASSIGNED entry of the glossary was produced by (or agrees with) the
pipeline's own resolution, and ASSIGNED entries never shadow a
fixed-lexicon token. -/
def GlosarioCoherente (g : Glosario) : Prop :=
  ∀ t e, g.obtener_entrada t = some e →
    e.status = TokenStatus.ASIGNADO →
    e.token_tgt = some (resolverNucleo t) ∧
      ProcesadorNucleos.etimologia.lookup (pyLower t) = none

-- ══════════════════════════════════════════════════════════════
-- Concrete inputs used by witnesses and counterexamples
-- ══════════════════════════════════════════════════════════════

/-- A glossary holding one assigned core entry (tagged other than
FORZADO_USUARIO) and one pending entry. -/
def glosarioEjemplo : Glosario :=
  ⟨[("amr", ⟨"amr", TokenCategoria.NUCLEO, some "orden", TokenStatus.ASIGNADO, 2,
      [0], some "AUTO", []⟩),
    ("dar", ⟨"dar", TokenCategoria.NUCLEO, none, TokenStatus.PENDIENTE, 0,
      [1], none, []⟩)],
   [], 0⟩

/-- A one-cell target matrix whose cell has the empty string assigned as
target text. -/
def matrizObjetivoVacioAsignado : MatrizTarget :=
  ⟨1, [⟨0, "amr", some "", "normal", none⟩], []⟩

/-- The five-token scenario sentence: position 2 is the lexicon noun
"kitab". -/
def oracionKitab : List String := ["qalb", "fi", "kitab", "wa", "aql"]

/-- A five-cell source matrix carrying a locution over positions 2-4 with
target "X" (matching the absorption scenario of the specification). -/
def matrizConLocucion : MatrizFuente :=
  (construirMatrizFuente ["a", "b", "c", "d", "e"]).agregar_locucion
    ⟨"LOC_0001", "c d e", ["c", "d", "e"], [2, 3, 4], some "X"⟩

/-- A classified batch for the registration-idempotence witness: "amr"
occurs twice, "fi" once. -/
def loteEjemplo : List (String × TokenCategoria × CategoriaGramatical) :=
  [("amr", TokenCategoria.NUCLEO, CategoriaGramatical.SUSTANTIVO),
   ("fi", TokenCategoria.PARTICULA, CategoriaGramatical.PREPOSICION),
   ("amr", TokenCategoria.NUCLEO, CategoriaGramatical.SUSTANTIVO)]

/-- Every glossary entry is still PENDING (the state right after the
registration pass from an empty glossary). -/
def TodasPendientes (g : Glosario) : Prop :=
  ∀ t e, g.obtener_entrada t = some e → e.status = TokenStatus.PENDIENTE

/-- Structure of the source matrix built by the per-sentence pipeline for
a token list: one cell per token, no locutions, and each cell holding a
valid reference to the fresh slot of its own position. -/
def EstructuraFuente (ms : MatrizFuente) (tokens : List String) : Prop :=
  ms.locuciones = [] ∧
  ms.celdas.length = tokens.length ∧
  (∀ k t, tokens[k]? = some t →
    ∃ c, ms.celdas[k]? = some c ∧
      c.pos = k ∧ c.token_src = t ∧ c.token_tgt = none ∧ c.tipo = "normal" ∧
      (if (ClasificadorGramatical.clasificar t).1 = TokenCategoria.NUCLEO then
        ∃ j, c.slot = some (SlotRef.n j) ∧
          ms.slots_n[j]? = some (SlotN.nuevo t (ClasificadorGramatical.clasificar t).2 k)
       else
        ∃ j, c.slot = some (SlotRef.p j) ∧
          ms.slots_p[j]? = some (SlotP.nuevo t (ClasificadorGramatical.clasificar t).2 k))) ∧
  (∀ sn ∈ ms.slots_n, ∃ t, tokens[sn.pos_index]? = some t ∧
    sn = SlotN.nuevo t (ClasificadorGramatical.clasificar t).2 sn.pos_index ∧
    (ClasificadorGramatical.clasificar t).1 = TokenCategoria.NUCLEO) ∧
  (∀ sp ∈ ms.slots_p, ∃ t, tokens[sp.pos_index]? = some t ∧
    sp = SlotP.nuevo t (ClasificadorGramatical.clasificar t).2 sp.pos_index ∧
    (ClasificadorGramatical.clasificar t).1 ≠ TokenCategoria.NUCLEO)

/-- The target cells the locution-free pipeline is expected to produce:
one cell per token, in position order, holding that token's resolution. -/
def celdasEsperadas (tokens : List String) : List CeldaMatriz :=
  tokens.enum.map (fun p => ⟨p.1, p.2, some (resolverToken p.2), "normal", none⟩)

/-- The batch indices (counting from `i`) at which a given token occurs in
a classified batch — the occurrence positions `fase_a_procesar` records. -/
def idsDe (t : String) : Nat → List (String × TokenCategoria × CategoriaGramatical) → List Nat
  | _, [] => []
  | i, (tok, _, _) :: rest =>
    if tok = t then i :: idsDe t (i + 1) rest else idsDe t (i + 1) rest

-- ══════════════════════════════════════════════════════════════
-- Helper lemmas: dictionaries
-- ══════════════════════════════════════════════════════════════

theorem dictBusca_nil {α : Type} (t : String) : dictBusca ([] : List (String × α)) t = none := by
  simp [dictBusca]

theorem dictBusca_cons {α : Type} (k : String) (v : α) (rest : List (String × α))
    (t : String) :
    dictBusca ((k, v) :: rest) t = if k = t then some v else dictBusca rest t := by
  by_cases h : k = t <;> simp [dictBusca, List.find?_cons, h]

theorem dictBusca_dictPon {α : Type} (l : List (String × α)) (k t : String) (v : α) :
    dictBusca (dictPon l k v) t = if k = t then some v else dictBusca l t := by
  induction l with
  | nil => simp [dictPon, dictBusca_cons, dictBusca_nil]
  | cons p rest ih =>
    obtain ⟨k', v'⟩ := p
    by_cases hk : k' = k
    · subst hk
      simp only [dictPon, if_pos rfl, dictBusca_cons]
      by_cases ht : k' = t <;> simp [ht, dictBusca_cons]
    · simp only [dictPon, if_neg hk, dictBusca_cons, ih]
      by_cases h1 : k' = t
      · subst h1
        have hkt : ¬k = k' := fun h2 => hk h2.symm
        simp [hkt]
      · simp [h1]

theorem dictPon_claves_mem {α : Type} (l : List (String × α)) (k : String) (v : α)
    (h : (dictBusca l k).isSome) :
    (dictPon l k v).map Prod.fst = l.map Prod.fst := by
  induction l with
  | nil => simp [dictBusca] at h
  | cons p rest ih =>
    obtain ⟨k', v'⟩ := p
    by_cases hk : k' = k
    · subst hk; simp [dictPon]
    · rw [dictBusca_cons] at h
      simp [hk] at h
      simp [dictPon, hk, ih h]

-- ══════════════════════════════════════════════════════════════
-- Helper lemmas: matrix cell updates
-- ══════════════════════════════════════════════════════════════

theorem listaModifica_longitud {α : Type} (l : List α) (i : Nat) (f : α → α) :
    (listaModifica l i f).length = l.length := by
  unfold listaModifica
  cases h : l[i]? <;> simp

theorem modificaCelda_destrucciona {m : MatrizTarget} {p : Nat}
    {f : CeldaMatriz → CeldaMatriz} {m' : MatrizTarget}
    (h : m.modificaCelda p f = some m') :
    ∃ c, m.celdas[p]? = some c ∧ m'.celdas = m.celdas.set p (f c) ∧
      m'._size = m._size ∧ m'.inyecciones = m.inyecciones := by
  unfold MatrizTarget.modificaCelda at h
  cases hc : m.celdas[p]? with
  | none => rw [hc] at h; cases h
  | some c =>
    rw [hc] at h
    injection h with h
    subst h
    exact ⟨c, rfl, rfl, rfl, rfl⟩

theorem modificaCelda_longitud {m : MatrizTarget} {p : Nat}
    {f : CeldaMatriz → CeldaMatriz} {m' : MatrizTarget}
    (h : m.modificaCelda p f = some m') :
    m'.celdas.length = m.celdas.length := by
  obtain ⟨c, _, hc, _, _⟩ := modificaCelda_destrucciona h
  simp [hc]

theorem modificaCelda_get_mismo {m : MatrizTarget} {p : Nat}
    {f : CeldaMatriz → CeldaMatriz} {m' : MatrizTarget}
    (h : m.modificaCelda p f = some m') :
    m'.celdas[p]? = (m.celdas[p]?).map f := by
  obtain ⟨c, hget, hc, _, _⟩ := modificaCelda_destrucciona h
  have hlt : p < m.celdas.length := (List.getElem?_eq_some.mp hget).1
  rw [hc, hget, List.getElem?_set_eq_of_lt _ hlt]
  rfl

theorem modificaCelda_get_otro {m : MatrizTarget} {p : Nat}
    {f : CeldaMatriz → CeldaMatriz} {m' : MatrizTarget}
    (h : m.modificaCelda p f = some m') (q : Nat) (hq : p ≠ q) :
    m'.celdas[q]? = m.celdas[q]? := by
  obtain ⟨c, _, hc, _, _⟩ := modificaCelda_destrucciona h
  rw [hc, List.getElem?_set_ne hq]

theorem modificaCelda_existe (m : MatrizTarget) (p : Nat)
    (f : CeldaMatriz → CeldaMatriz) (hp : p < m.celdas.length) :
    ∃ m', m.modificaCelda p f = some m' := by
  unfold MatrizTarget.modificaCelda
  cases hc : m.celdas[p]? with
  | none =>
    have := List.getElem?_eq_none_iff.mp hc
    omega
  | some c => exact ⟨_, rfl⟩

theorem nueva_longitud (n : Nat) : (MatrizTarget.nueva n).celdas.length = n := by
  simp [MatrizTarget.nueva]

theorem nueva_get (n k : Nat) (hk : k < n) :
    (MatrizTarget.nueva n).celdas[k]? =
      some ⟨k, "", none, "normal", none⟩ := by
  simp [MatrizTarget.nueva, List.getElem?_map, List.getElem?_range hk]

-- ══════════════════════════════════════════════════════════════
-- Helper lemmas: phase shape and length preservation
-- ══════════════════════════════════════════════════════════════

theorem f2_paso_longitud {g : Glosario} {mt : MatrizTarget} {s : SlotN}
    {out : MatrizTarget × SlotN × Glosario}
    (h : Core.f2_paso g mt s = some out) :
    out.1.celdas.length = mt.celdas.length := by
  unfold Core.f2_paso at h
  by_cases hb : s.es_bloqueado
  · simp only [hb, if_true, Option.map_eq_some'] at h
    obtain ⟨mt', hmt', hout⟩ := h
    rw [← hout]
    exact modificaCelda_longitud hmt'
  · simp only [hb, if_false, Bool.false_eq_true, Option.map_eq_some'] at h
    obtain ⟨g', _, hout⟩ := h
    rw [← hout]

theorem faseNucleos_longitud {slots : List SlotN} {g : Glosario} {mt : MatrizTarget}
    {out : MatrizTarget × List SlotN × Glosario}
    (h : Core.faseNucleos g mt slots = some out) :
    out.1.celdas.length = mt.celdas.length := by
  induction slots generalizing g mt out with
  | nil =>
    unfold Core.faseNucleos at h
    injection h with h
    rw [← h]
  | cons s rest ih =>
    unfold Core.faseNucleos at h
    rw [Option.bind_eq_some] at h
    obtain ⟨x, h2, h⟩ := h
    rw [Option.map_eq_some'] at h
    obtain ⟨y, h3, h⟩ := h
    rw [← h]
    calc y.1.celdas.length = x.1.celdas.length := ih h3
      _ = mt.celdas.length := f2_paso_longitud h2

theorem faseMapeo_longitud {ms : MatrizFuente} {cs : List CeldaMatriz} {i : Nat}
    {mt mt' : MatrizTarget}
    (h : Core.faseMapeo ms i cs mt = some mt') :
    mt'.celdas.length = mt.celdas.length := by
  induction cs generalizing i mt with
  | nil =>
    unfold Core.faseMapeo at h
    injection h with h
    rw [← h]
  | cons c rest ih =>
    unfold Core.faseMapeo at h
    rw [Option.bind_eq_some] at h
    obtain ⟨mta, h2, h⟩ := h
    calc mt'.celdas.length = mta.celdas.length := ih h
      _ = mt.celdas.length := modificaCelda_longitud h2

theorem f4_paso_longitud {ms : MatrizFuente} {g : Glosario} {mt : MatrizTarget}
    {sp : SlotP} {mt' : MatrizTarget}
    (h : Core.f4_paso ms g mt sp = some mt') :
    mt'.celdas.length = mt.celdas.length := by
  unfold Core.f4_paso at h
  by_cases hb : sp.es_bloqueado
  · simp only [hb, if_true] at h
    injection h with h
    rw [← h]
  · simp only [hb, if_false, Bool.false_eq_true] at h
    cases hcand : (ProcesadorParticulas.procesar sp ms g).head? with
    | none => rw [hcand] at h; cases h
    | some cand =>
      rw [hcand] at h
      exact modificaCelda_longitud h

theorem faseParticulas_longitud {ms : MatrizFuente} {g : Glosario}
    {sps : List SlotP} {mt mt' : MatrizTarget}
    (h : Core.faseParticulas ms g mt sps = some mt') :
    mt'.celdas.length = mt.celdas.length := by
  induction sps generalizing mt with
  | nil =>
    unfold Core.faseParticulas at h
    injection h with h
    rw [← h]
  | cons sp rest ih =>
    unfold Core.faseParticulas at h
    rw [Option.bind_eq_some] at h
    obtain ⟨mta, h2, h⟩ := h
    calc mt'.celdas.length = mta.celdas.length := ih h
      _ = mt.celdas.length := f4_paso_longitud h2

/-- Shape of a successful orchestrator run: the three phases succeeded in
order and the result bundle is `CoreResult(True, mt3, "OK")`. -/
theorem procesar_oracion_despliega {g : Glosario} {ms : MatrizFuente}
    {res : CoreResult × MatrizFuente × Glosario}
    (h : Core.procesar_oracion g ms = some res) :
    ∃ mt1 slots' g1 mt2 mt3,
      Core.faseNucleos g (MatrizTarget.nueva ms.size) ms.slots_n = some (mt1, slots', g1) ∧
      Core.faseMapeo { ms with slots_n := slots' } 0 ms.celdas mt1 = some mt2 ∧
      Core.faseParticulas { ms with slots_n := slots' } g1 mt2 ms.slots_p = some mt3 ∧
      res = (⟨true, some mt3, "OK"⟩, { ms with slots_n := slots' }, g1) := by
  unfold Core.procesar_oracion at h
  rw [Option.bind_eq_some] at h
  obtain ⟨x, h1, h⟩ := h
  obtain ⟨mt1, slots', g1⟩ := x
  rw [Option.bind_eq_some] at h
  obtain ⟨mt2, h2, h⟩ := h
  rw [Option.map_eq_some'] at h
  obtain ⟨mt3, h3, h⟩ := h
  exact ⟨mt1, slots', g1, mt2, mt3, h1, h2, h3, h.symm⟩

-- ══════════════════════════════════════════════════════════════
-- Claim C1
-- ══════════════════════════════════════════════════════════════

/-- Claim C1: for every sentence processed by the orchestrator, the target
matrix is allocated with exactly the same number of cells as the source
matrix (`MatrizTarget(mtx_s.size())`), and marking cells ABSORBED never
changes the target matrix's cell count. -/
theorem C1_isomorfismo :
    (∀ n : Nat, (MatrizTarget.nueva n).celdas.length = n) ∧
    (∀ (g : Glosario) (mtx_s : MatrizFuente),
      (Core.procesar_oracion g mtx_s).isSome →
      longitudObjetivo (Core.procesar_oracion g mtx_s) = some mtx_s.size) ∧
    (∀ (m : MatrizTarget) (pos : Nat),
      (m.marcar_absorbido pos).isSome →
      (m.marcar_absorbido pos).map (fun m2 => m2.celdas.length) =
        some m.celdas.length) := by
  refine ⟨nueva_longitud, ?_, ?_⟩
  · intro g mtx_s hs
    rw [Option.isSome_iff_exists] at hs
    obtain ⟨res, hres⟩ := hs
    obtain ⟨mt1, slots', g1, mt2, mt3, h1, h2, h3, hform⟩ :=
      procesar_oracion_despliega hres
    have l1 : mt1.celdas.length = (MatrizTarget.nueva mtx_s.size).celdas.length :=
      faseNucleos_longitud h1
    have l2 : mt2.celdas.length = mt1.celdas.length := faseMapeo_longitud h2
    have l3 : mt3.celdas.length = mt2.celdas.length := faseParticulas_longitud h3
    rw [hres, hform]
    show some mt3.celdas.length = some mtx_s.size
    rw [l3, l2, l1, nueva_longitud]
  · intro m pos hs
    rw [Option.isSome_iff_exists] at hs
    obtain ⟨m2, hm2⟩ := hs
    unfold MatrizTarget.marcar_absorbido at hm2
    rw [MatrizTarget.marcar_absorbido, hm2, Option.map_some']
    exact congrArg some (modificaCelda_longitud hm2)

/-- Witness for C1 at concrete inputs: a five-token sentence and a one-cell
matrix. -/
theorem C1_isomorfismo_witness :
    (MatrizTarget.nueva 3).celdas.length = 3 ∧
    longitudObjetivo
        (Core.procesar_oracion Glosario.vacio (construirMatrizFuente oracionKitab)) =
      some (construirMatrizFuente oracionKitab).size ∧
    (matrizObjetivoVacioAsignado.marcar_absorbido 0).map (fun m2 => m2.celdas.length) =
      some matrizObjetivoVacioAsignado.celdas.length :=
  ⟨C1_isomorfismo.1 3,
   C1_isomorfismo.2.1 Glosario.vacio (construirMatrizFuente oracionKitab) (by decide),
   C1_isomorfismo.2.2 matrizObjetivoVacioAsignado 0 (by decide)⟩

-- ══════════════════════════════════════════════════════════════
-- Claim C10
-- ══════════════════════════════════════════════════════════════

/-- Claim C10: whenever the per-sentence orchestration returns a result
bundle, the bundle has success flag True and message "OK" — it never
signals failure, regardless of the matrix contents.  (A malformed matrix
can only make the Python method raise, modelled here as `none`; it can
never produce a failing bundle.) -/
theorem C10_resultado_ok (g : Glosario) (mtx_s : MatrizFuente)
    (h : (Core.procesar_oracion g mtx_s).isSome) :
    indicadorResultado (Core.procesar_oracion g mtx_s) = some (true, "OK") := by
  rw [Option.isSome_iff_exists] at h
  obtain ⟨res, hres⟩ := h
  obtain ⟨mt1, slots', g1, mt2, mt3, _, _, _, hform⟩ :=
    procesar_oracion_despliega hres
  rw [hres, hform]
  rfl

/-- Witness for C10 at a concrete two-token sentence. -/
theorem C10_resultado_ok_witness :
    indicadorResultado
        (Core.procesar_oracion Glosario.vacio (construirMatrizFuente ["wa", "nafs"])) =
      some (true, "OK") :=
  C10_resultado_ok Glosario.vacio (construirMatrizFuente ["wa", "nafs"]) (by decide)

-- ══════════════════════════════════════════════════════════════
-- Claim C9
-- ══════════════════════════════════════════════════════════════

/-- Claim C9: `fase_b_asignar` on a token with no glossary entry returns
False and leaves the glossary exactly unchanged; the embedded function is
total, so no exception can be raised on this path. -/
theorem C9_asignar_sin_registro (g : Glosario) (token tgt : String) (margen : Nat)
    (etiqueta : Option String) (func_role : Option FuncRole)
    (h : g.obtener_entrada token = none) :
    g.fase_b_asignar token tgt margen etiqueta func_role = (g, false) := by
  unfold Glosario.fase_b_asignar
  rw [h]

/-- Witness for C9: assigning to an unregistered token of the example
glossary. -/
theorem C9_asignar_sin_registro_witness :
    glosarioEjemplo.fase_b_asignar "nafs" "alma" 1 none none =
      (glosarioEjemplo, false) :=
  C9_asignar_sin_registro glosarioEjemplo "nafs" "alma" 1 none none (by decide)

-- ══════════════════════════════════════════════════════════════
-- Claim C2
-- ══════════════════════════════════════════════════════════════

/-- Counterexample to claim C2: "amr" is a core entry, ASSIGNED to "orden"
with tag "AUTO" (not FORZADO_USUARIO); a later assign with the different
target "mandato" and a non-forced tag succeeds with True and the stored
target silently becomes "mandato" — no conflict is signalled and the
stored target is overwritten, contradicting the claim. -/
theorem C2_sinonimia_contraejemplo :
    (glosarioEjemplo.obtener_entrada "amr").map
        (fun e => (e.categoria, e.token_tgt, e.status, e.etiqueta)) =
      some (TokenCategoria.NUCLEO, some "orden", TokenStatus.ASIGNADO, some "AUTO") ∧
    (glosarioEjemplo.fase_b_asignar "amr" "mandato" 1 (some "NUEVA") none).2 = true ∧
    ((glosarioEjemplo.fase_b_asignar "amr" "mandato" 1 (some "NUEVA") none).1.obtener_entrada
        "amr").map (fun e => e.token_tgt) = some (some "mandato") := by
  decide

/-- Claim C2 as amended: for a core entry already ASSIGNED with a tag other
than FORCED_BY_USER, a later assign with a different target and non-forced
tag is NOT flagged — the synonymy check in the source is a no-op — and the
stored target is silently overwritten (target, status, margin and tag all
take the new values). -/
theorem C2_sinonimia_enmendada (g : Glosario) (token tgt : String) (margen : Nat)
    (etiqueta : Option String) (fr : Option FuncRole) (e : EntradaGlosario)
    (he : g.obtener_entrada token = some e)
    (hn : e.categoria = TokenCategoria.NUCLEO)
    (ha : e.status = TokenStatus.ASIGNADO)
    (hd : e.token_tgt ≠ some tgt)
    (hf : e.etiqueta ≠ some "FORZADO_USUARIO") :
    (g.fase_b_asignar token tgt margen etiqueta fr).2 = true ∧
    (g.fase_b_asignar token tgt margen etiqueta fr).1.obtener_entrada token =
      some { e with token_tgt := some tgt, status := TokenStatus.ASIGNADO,
                    margen := margen, etiqueta := etiqueta } := by
  have hpair : g.fase_b_asignar token tgt margen etiqueta fr =
      ({ g with entradas := dictPon g.entradas token ({ e with token_tgt := some tgt, status := TokenStatus.ASIGNADO, margen := margen, etiqueta := etiqueta }) }, true) := by
    unfold Glosario.fase_b_asignar
    rw [he]
  rw [hpair]
  refine ⟨rfl, ?_⟩
  show dictBusca (dictPon g.entradas token _) token = _
  rw [dictBusca_dictPon]
  simp

/-- Witness for the amended C2 at the example glossary. -/
theorem C2_sinonimia_enmendada_witness :
    (glosarioEjemplo.fase_b_asignar "amr" "mandato" 1 (some "NUEVA") none).2 = true ∧
    (glosarioEjemplo.fase_b_asignar "amr" "mandato" 1 (some "NUEVA") none).1.obtener_entrada
        "amr" =
      some ⟨"amr", TokenCategoria.NUCLEO, some "mandato", TokenStatus.ASIGNADO, 1,
        [0], some "NUEVA", []⟩ :=
  C2_sinonimia_enmendada glosarioEjemplo "amr" "mandato" 1 (some "NUEVA") none
    ⟨"amr", TokenCategoria.NUCLEO, some "orden", TokenStatus.ASIGNADO, 2, [0],
      some "AUTO", []⟩
    (by decide) (by decide) (by decide) (by decide) (by decide)

-- ══════════════════════════════════════════════════════════════
-- Claim C5
-- ══════════════════════════════════════════════════════════════

/-- Counterexample to claim C5: a non-absorbed cell whose target was
assigned the empty string.  The claim-side serialization keeps the
assigned text (""), but the code serializes the bracketed source token
("[amr]"), because Python's `or` also treats an assigned empty string as
missing. -/
theorem C5_serializacion_contraejemplo :
    Core.serializar_resultado matrizObjetivoVacioAsignado ≠
      serializacionSegunEspec matrizObjetivoVacioAsignado ∧
    Core.serializar_resultado matrizObjetivoVacioAsignado = "[amr]" ∧
    serializacionSegunEspec matrizObjetivoVacioAsignado = "" := by
  decide

/-- Claim C5 as amended: serialization concatenates, in position order, the
text of every non-ABSORBED cell, substituting the bracket-wrapped source
token both for a cell whose target was never assigned and for a cell whose
assigned target is the empty string. -/
theorem C5_serializacion_enmendada (mt : MatrizTarget) :
    Core.serializar_resultado mt = serializacionEspecEnmendada mt := by
  unfold Core.serializar_resultado serializacionEspecEnmendada
  congr 1

-- ══════════════════════════════════════════════════════════════
-- Helper lemmas: per-cell behaviour of phases F3 and F4
-- ══════════════════════════════════════════════════════════════

theorem faseMapeo_get_bajo {ms : MatrizFuente} {cs : List CeldaMatriz} {i : Nat}
    {mt mt' : MatrizTarget} (h : Core.faseMapeo ms i cs mt = some mt')
    (k : Nat) (hk : k < i) :
    mt'.celdas[k]? = mt.celdas[k]? := by
  induction cs generalizing i mt with
  | nil =>
    unfold Core.faseMapeo at h
    injection h with h
    rw [← h]
  | cons c rest ih =>
    unfold Core.faseMapeo at h
    rw [Option.bind_eq_some] at h
    obtain ⟨mta, h2, h⟩ := h
    have e1 : mt'.celdas[k]? = mta.celdas[k]? := ih h (by omega)
    have e2 : mta.celdas[k]? = mt.celdas[k]? :=
      modificaCelda_get_otro h2 k (by omega)
    rw [e1, e2]

theorem faseMapeo_get_en {ms : MatrizFuente} {cs : List CeldaMatriz} {i : Nat}
    {mt mt' : MatrizTarget} (h : Core.faseMapeo ms i cs mt = some mt')
    (k : Nat) (c : CeldaMatriz) (hc : cs[k]? = some c) :
    mt'.celdas[i + k]? = (mt.celdas[i + k]?).map (Core.f3_celda ms (i + k) c) := by
  induction cs generalizing i mt k with
  | nil => simp at hc
  | cons c0 rest ih =>
    unfold Core.faseMapeo at h
    rw [Option.bind_eq_some] at h
    obtain ⟨mta, h2, h⟩ := h
    cases k with
    | zero =>
      simp only [List.getElem?_cons_zero] at hc
      injection hc with hc
      subst hc
      have e1 : mt'.celdas[i]? = mta.celdas[i]? := faseMapeo_get_bajo h i (by omega)
      rw [Nat.add_zero, e1]
      exact modificaCelda_get_mismo h2
    | succ k' =>
      simp only [List.getElem?_cons_succ] at hc
      have harr : i + (k' + 1) = (i + 1) + k' := by omega
      rw [harr, ih h k' hc, modificaCelda_get_otro h2 ((i + 1) + k') (by omega)]

theorem faseParticulas_get_fuera {ms : MatrizFuente} {g : Glosario}
    {sps : List SlotP} {mt mt' : MatrizTarget}
    (h : Core.faseParticulas ms g mt sps = some mt') (k : Nat)
    (hk : ∀ sp ∈ sps, sp.es_bloqueado = false → sp.pos_index ≠ k) :
    mt'.celdas[k]? = mt.celdas[k]? := by
  induction sps generalizing mt with
  | nil =>
    unfold Core.faseParticulas at h
    injection h with h
    rw [← h]
  | cons sp rest ih =>
    unfold Core.faseParticulas at h
    rw [Option.bind_eq_some] at h
    obtain ⟨mta, h2, h⟩ := h
    have e1 : mt'.celdas[k]? = mta.celdas[k]? :=
      ih h (fun sp' hm hb => hk sp' (List.mem_cons_of_mem _ hm) hb)
    rw [e1]
    unfold Core.f4_paso at h2
    by_cases hb : sp.es_bloqueado
    · rw [if_pos hb] at h2
      injection h2 with h2
      rw [← h2]
    · rw [if_neg hb] at h2
      cases hcand : (ProcesadorParticulas.procesar sp ms g).head? with
      | none => rw [hcand] at h2; cases h2
      | some cand =>
        rw [hcand] at h2
        exact modificaCelda_get_otro h2 k
          (hk sp (List.mem_cons_self _ _) (by simpa using hb))

-- ══════════════════════════════════════════════════════════════
-- Helper lemmas: minimum position of a locution
-- ══════════════════════════════════════════════════════════════

theorem foldlMin_mem (p : Nat) (ps : List Nat) : ps.foldl Nat.min p ∈ p :: ps := by
  induction ps generalizing p with
  | nil => simp
  | cons q rest ih =>
    simp only [List.foldl_cons]
    have hmem := ih (Nat.min p q)
    rcases List.mem_cons.mp hmem with h | h
    · rw [h]
      have hor : Nat.min p q = p ∨ Nat.min p q = q := by
        have hd : Nat.min p q = if p ≤ q then p else q := rfl
        rw [hd]
        split
        · exact Or.inl rfl
        · exact Or.inr rfl
      rcases hor with h2 | h2 <;> rw [h2]
      · exact List.mem_cons_self _ _
      · exact List.mem_cons_of_mem _ (List.mem_cons_self _ _)
    · exact List.mem_cons_of_mem _ (List.mem_cons_of_mem _ h)

theorem primera_posicion_mem (l : Locucion) (hne : l.posiciones ≠ []) :
    l.primera_posicion.toNat ∈ l.posiciones ∧
      Int.ofNat l.primera_posicion.toNat = l.primera_posicion := by
  rcases hps : l.posiciones with _ | ⟨p, ps⟩
  · exact absurd hps hne
  · unfold Locucion.primera_posicion
    rw [hps]
    constructor
    · show (Int.ofNat (ps.foldl Nat.min p)).toNat ∈ p :: ps
      exact foldlMin_mem p ps
    · rfl

-- ══════════════════════════════════════════════════════════════
-- Claim C4
-- ══════════════════════════════════════════════════════════════

/-- Claim C4: for a locution covering a position set P in a processed
sentence — the locution is the one the matrix lookup finds at each of its
positions, its positions lie inside the sentence, and, as the pipeline
guarantees for locution members, particle slots at those positions are
blocked — the target cell at min(P) receives the locution's target text
with cell type "locucion", and every other position of P is marked
"absorbido" (so the serializer, which skips absorbed cells, gives it no
independent target text). -/
theorem C4_absorcion_locucion (g : Glosario) (mtx_s : MatrizFuente)
    (loc : Locucion) (p : Nat)
    (hres : (Core.procesar_oracion g mtx_s).isSome)
    (hcob : ∀ q ∈ loc.posiciones, mtx_s.obtener_locucion_en_pos q = some loc)
    (hran : ∀ q ∈ loc.posiciones, q < mtx_s.size)
    (hblo : ∀ sp ∈ mtx_s.slots_p, sp.pos_index ∈ loc.posiciones →
      sp.es_bloqueado = true)
    (hp : p ∈ loc.posiciones) :
    contenidoCelda (Core.procesar_oracion g mtx_s) loc.primera_posicion.toNat =
      some (loc.tgt, "locucion") ∧
    (Int.ofNat p ≠ loc.primera_posicion →
      contenidoCelda (Core.procesar_oracion g mtx_s) p =
        some (some "[ABSORBIDO]", "absorbido")) := by
  rw [Option.isSome_iff_exists] at hres
  obtain ⟨res, hr⟩ := hres
  obtain ⟨mt1, slots', g1, mt2, mt3, h1, h2, h3, hform⟩ :=
    procesar_oracion_despliega hr
  have hne : loc.posiciones ≠ [] := by
    intro hnil
    rw [hnil] at hp
    cases hp
  obtain ⟨hminmem, hmineq⟩ := primera_posicion_mem loc hne
  have hsz : mtx_s.size = mtx_s.celdas.length := rfl
  have l1 : mt1.celdas.length = (MatrizTarget.nueva mtx_s.size).celdas.length :=
    faseNucleos_longitud h1
  rw [nueva_longitud] at l1
  have hcelda : ∀ q ∈ loc.posiciones, ∃ cq c1,
      mtx_s.celdas[q]? = some cq ∧ mt1.celdas[q]? = some c1 ∧
      mt3.celdas[q]? =
        some (Core.f3_celda { mtx_s with slots_n := slots' } q cq c1) := by
    intro q hq
    have hqlt : q < mtx_s.celdas.length := hran q hq
    obtain ⟨cq, hcq⟩ : ∃ cq, mtx_s.celdas[q]? = some cq := by
      cases hx : mtx_s.celdas[q]? with
      | none =>
        have := List.getElem?_eq_none_iff.mp hx
        omega
      | some c => exact ⟨c, rfl⟩
    obtain ⟨c1, hc1⟩ : ∃ c1, mt1.celdas[q]? = some c1 := by
      cases hx : mt1.celdas[q]? with
      | none =>
        have := List.getElem?_eq_none_iff.mp hx
        omega
      | some c => exact ⟨c, rfl⟩
    refine ⟨cq, c1, hcq, hc1, ?_⟩
    have hmap := faseMapeo_get_en h2 q cq hcq
    rw [Nat.zero_add] at hmap
    have hm3 : mt3.celdas[q]? = mt2.celdas[q]? := by
      apply faseParticulas_get_fuera h3 q
      intro sp hm hb hcontra
      have hbt := hblo sp hm (by rw [hcontra]; exact hq)
      rw [hbt] at hb
      cases hb
    rw [hm3, hmap, hc1]
    rfl
  constructor
  · obtain ⟨cq, c1, hcq, hc1, hcel⟩ := hcelda _ hminmem
    rw [hr, hform]
    show (mt3.celdas[loc.primera_posicion.toNat]?).map
        (fun c => (c.token_tgt, c.tipo)) = some (loc.tgt, "locucion")
    rw [hcel]
    unfold Core.f3_celda
    rw [show ({ mtx_s with slots_n := slots' } :
        MatrizFuente).obtener_locucion_en_pos loc.primera_posicion.toNat =
        some loc from hcob _ hminmem]
    dsimp only
    rw [if_pos hmineq]
    rfl
  · intro hnomin
    obtain ⟨cq, c1, hcq, hc1, hcel⟩ := hcelda p hp
    rw [hr, hform]
    show (mt3.celdas[p]?).map (fun c => (c.token_tgt, c.tipo)) =
      some (some "[ABSORBIDO]", "absorbido")
    rw [hcel]
    unfold Core.f3_celda
    rw [show ({ mtx_s with slots_n := slots' } :
        MatrizFuente).obtener_locucion_en_pos p = some loc from hcob p hp]
    dsimp only
    rw [if_neg hnomin]
    rfl

/-- Witness for C4: the concrete five-cell matrix whose locution covers
positions [2,3,4] with target "X"; position 3 is absorbed and position 2
(the minimum) carries "X". -/
theorem C4_absorcion_locucion_witness :
    contenidoCelda (Core.procesar_oracion Glosario.vacio matrizConLocucion)
        (Locucion.primera_posicion
          ⟨"LOC_0001", "c d e", ["c", "d", "e"], [2, 3, 4], some "X"⟩).toNat =
      some (some "X", "locucion") ∧
    (Int.ofNat 3 ≠ Locucion.primera_posicion
        ⟨"LOC_0001", "c d e", ["c", "d", "e"], [2, 3, 4], some "X"⟩ →
      contenidoCelda (Core.procesar_oracion Glosario.vacio matrizConLocucion) 3 =
        some (some "[ABSORBIDO]", "absorbido")) :=
  C4_absorcion_locucion Glosario.vacio matrizConLocucion
    ⟨"LOC_0001", "c d e", ["c", "d", "e"], [2, 3, 4], some "X"⟩ 3
    (by decide) (by decide) (by decide) (by decide) (by decide)

-- ══════════════════════════════════════════════════════════════
-- Helper lemmas: the registration pass (fase A)
-- ══════════════════════════════════════════════════════════════

theorem idsDe_cons (t tok : String) (cat : TokenCategoria)
    (gram : CategoriaGramatical) (i : Nat)
    (rest : List (String × TokenCategoria × CategoriaGramatical)) :
    idsDe t i ((tok, cat, gram) :: rest) =
      if tok = t then i :: idsDe t (i + 1) rest else idsDe t (i + 1) rest := rfl

theorem idsDe_no_vacia {t : String}
    {toks : List (String × TokenCategoria × CategoriaGramatical)}
    (hmem : ∃ x ∈ toks, x.1 = t) (i : Nat) :
    idsDe t i toks ≠ [] := by
  induction toks generalizing i with
  | nil =>
    obtain ⟨x, hx, _⟩ := hmem
    cases hx
  | cons y rest ih =>
    obtain ⟨tok, cat, gram⟩ := y
    rw [idsDe_cons]
    by_cases htok : tok = t
    · rw [if_pos htok]
      simp
    · rw [if_neg htok]
      rcases hmem with ⟨x, hx, hxt⟩
      rcases List.mem_cons.mp hx with h1 | h2
      · rw [h1] at hxt
        exact absurd hxt htok
      · exact ih ⟨x, h2, hxt⟩ (i + 1)

theorem fase_a_bucle_existente {toks : List (String × TokenCategoria × CategoriaGramatical)}
    {g : Glosario} {i : Nat} {t : String} {e : EntradaGlosario}
    (he : g.obtener_entrada t = some e) :
    (Glosario.fase_a_bucle g i toks).obtener_entrada t =
      some { e with ocurrencias := e.ocurrencias ++ idsDe t i toks } := by
  induction toks generalizing g i e with
  | nil =>
    unfold Glosario.fase_a_bucle
    rw [he]
    simp [idsDe]
  | cons x rest ih =>
    obtain ⟨tok, cat, gram⟩ := x
    unfold Glosario.fase_a_bucle
    by_cases htok : tok = t
    · subst htok
      rw [he]
      dsimp only
      have he' : (⟨dictPon g.entradas tok ({ e with ocurrencias := e.ocurrencias ++ [i] }), g.locuciones, g.loc_counter⟩ : Glosario).obtener_entrada tok =
          some { e with ocurrencias := e.ocurrencias ++ [i] } := by
        show dictBusca (dictPon g.entradas tok _) tok = _
        rw [dictBusca_dictPon]
        simp
      rw [ih he', idsDe_cons, if_pos rfl]
      simp
    · cases hg : g.obtener_entrada tok with
      | none =>
        dsimp only
        have he' : (⟨dictPon g.entradas tok (EntradaGlosario.nueva tok cat [i]), g.locuciones, g.loc_counter⟩ : Glosario).obtener_entrada t = some e := by
          show dictBusca (dictPon g.entradas tok _) t = _
          rw [dictBusca_dictPon, if_neg htok]
          exact he
        rw [ih he', idsDe_cons, if_neg htok]
      | some e2 =>
        dsimp only
        have he' : (⟨dictPon g.entradas tok ({ e2 with ocurrencias := e2.ocurrencias ++ [i] }), g.locuciones, g.loc_counter⟩ : Glosario).obtener_entrada t = some e := by
          show dictBusca (dictPon g.entradas tok _) t = _
          rw [dictBusca_dictPon, if_neg htok]
          exact he
        rw [ih he', idsDe_cons, if_neg htok]

theorem fase_a_bucle_ausente {toks : List (String × TokenCategoria × CategoriaGramatical)}
    {g : Glosario} {i : Nat} {t : String}
    (h : ∀ x ∈ toks, x.1 ≠ t) :
    (Glosario.fase_a_bucle g i toks).obtener_entrada t = g.obtener_entrada t := by
  induction toks generalizing g i with
  | nil => rfl
  | cons x rest ih =>
    obtain ⟨tok, cat, gram⟩ := x
    have htok : tok ≠ t := h (tok, cat, gram) (List.mem_cons_self _ _)
    have hrest : ∀ x ∈ rest, x.1 ≠ t := fun y hy => h y (List.mem_cons_of_mem _ hy)
    unfold Glosario.fase_a_bucle
    cases hg : g.obtener_entrada tok with
    | none =>
      dsimp only
      rw [ih hrest]
      show dictBusca (dictPon g.entradas tok _) t = _
      rw [dictBusca_dictPon, if_neg htok]
      rfl
    | some e2 =>
      dsimp only
      rw [ih hrest]
      show dictBusca (dictPon g.entradas tok _) t = _
      rw [dictBusca_dictPon, if_neg htok]
      rfl

theorem fase_a_bucle_nueva (toks : List (String × TokenCategoria × CategoriaGramatical))
    {g : Glosario} {i : Nat} {t : String}
    (hnone : g.obtener_entrada t = none) :
    ((Glosario.fase_a_bucle g i toks).obtener_entrada t = none ∧ idsDe t i toks = []) ∨
    (∃ cat, (Glosario.fase_a_bucle g i toks).obtener_entrada t =
      some ⟨t, cat, none, TokenStatus.PENDIENTE, 0, idsDe t i toks, none, []⟩) := by
  induction toks generalizing g i with
  | nil =>
    left
    exact ⟨hnone, rfl⟩
  | cons x rest ih =>
    obtain ⟨tok, cat, gram⟩ := x
    unfold Glosario.fase_a_bucle
    by_cases htok : tok = t
    · subst htok
      rw [hnone]
      dsimp only
      right
      refine ⟨cat, ?_⟩
      have he' : (⟨dictPon g.entradas tok (EntradaGlosario.nueva tok cat [i]), g.locuciones, g.loc_counter⟩ : Glosario).obtener_entrada tok =
          some (EntradaGlosario.nueva tok cat [i]) := by
        show dictBusca (dictPon g.entradas tok _) tok = _
        rw [dictBusca_dictPon]
        simp
      rw [fase_a_bucle_existente he', idsDe_cons, if_pos rfl]
      rfl
    · cases hg : g.obtener_entrada tok with
      | none =>
        dsimp only
        have hnone' : (⟨dictPon g.entradas tok (EntradaGlosario.nueva tok cat [i]), g.locuciones, g.loc_counter⟩ : Glosario).obtener_entrada t = none := by
          show dictBusca (dictPon g.entradas tok _) t = _
          rw [dictBusca_dictPon, if_neg htok]
          exact hnone
        rcases ih hnone' with ⟨ha, hb⟩ | ⟨cat2, hc⟩
        · left
          rw [idsDe_cons, if_neg htok]
          exact ⟨ha, hb⟩
        · right
          refine ⟨cat2, ?_⟩
          rw [hc, idsDe_cons, if_neg htok]
      | some e2 =>
        dsimp only
        have hnone' : (⟨dictPon g.entradas tok ({ e2 with ocurrencias := e2.ocurrencias ++ [i] }), g.locuciones, g.loc_counter⟩ : Glosario).obtener_entrada t = none := by
          show dictBusca (dictPon g.entradas tok _) t = _
          rw [dictBusca_dictPon, if_neg htok]
          exact hnone
        rcases ih hnone' with ⟨ha, hb⟩ | ⟨cat2, hc⟩
        · left
          rw [idsDe_cons, if_neg htok]
          exact ⟨ha, hb⟩
        · right
          refine ⟨cat2, ?_⟩
          rw [hc, idsDe_cons, if_neg htok]

theorem fase_a_bucle_claves {toks : List (String × TokenCategoria × CategoriaGramatical)}
    {g : Glosario} {i : Nat}
    (h : ∀ x ∈ toks, ((g.obtener_entrada x.1).isSome : Prop)) :
    (Glosario.fase_a_bucle g i toks).claves = g.claves := by
  induction toks generalizing g i with
  | nil => rfl
  | cons x rest ih =>
    obtain ⟨tok, cat, gram⟩ := x
    have hx : (g.obtener_entrada tok).isSome := h (tok, cat, gram) (List.mem_cons_self _ _)
    unfold Glosario.fase_a_bucle
    cases hg : g.obtener_entrada tok with
    | none =>
      rw [hg] at hx
      simp at hx
    | some e2 =>
      dsimp only
      have hrest : ∀ x ∈ rest,
          (((⟨dictPon g.entradas tok ({ e2 with ocurrencias := e2.ocurrencias ++ [i] }), g.locuciones, g.loc_counter⟩ : Glosario).obtener_entrada x.1).isSome : Prop) := by
        intro y hy
        show (dictBusca (dictPon g.entradas tok _) y.1).isSome
        rw [dictBusca_dictPon]
        by_cases hyt : tok = y.1
        · rw [if_pos hyt]
          rfl
        · rw [if_neg hyt]
          exact h y (List.mem_cons_of_mem _ hy)
      rw [ih hrest]
      show (dictPon g.entradas tok _).map Prod.fst = g.entradas.map Prod.fst
      apply dictPon_claves_mem
      show ((Glosario.obtener_entrada g tok).isSome : Prop)
      rw [hg]
      rfl

theorem fase_a_bucle_existencia {toks : List (String × TokenCategoria × CategoriaGramatical)}
    {g : Glosario} {i : Nat} {t : String}
    (hmem : ∃ x ∈ toks, x.1 = t) :
    ((Glosario.fase_a_bucle g i toks).obtener_entrada t).isSome := by
  cases hg : g.obtener_entrada t with
  | some e =>
    rw [fase_a_bucle_existente hg]
    rfl
  | none =>
    rcases fase_a_bucle_nueva toks (i := i) hg with ⟨_, hb⟩ | ⟨cat, hc⟩
    · exact absurd hb (idsDe_no_vacia hmem i)
    · rw [hc]
      rfl

theorem ocurrenciasEquivalentes_refl (a : Option EntradaGlosario) :
    ocurrenciasEquivalentes a a := by
  cases a with
  | none => trivial
  | some e => exact ⟨rfl, rfl⟩

-- ══════════════════════════════════════════════════════════════
-- Claim C3
-- ══════════════════════════════════════════════════════════════

/-- Claim C3: calling the registration pass twice with the same batch
creates no duplicate glossary entries (the key list is unchanged by the
second call); every entry's occurrence SET — and all its other fields —
equals the state after the first call; and each call appends the batch's
occurrence positions exactly once, so occurrence counts reflect exactly
the registrations performed. -/
theorem C3_registro_idempotente (g : Glosario) (texto : String)
    (b : List (String × TokenCategoria × CategoriaGramatical)) (t : String) :
    (Glosario.fase_a_procesar (Glosario.fase_a_procesar g texto b) texto b).claves =
      (Glosario.fase_a_procesar g texto b).claves ∧
    ocurrenciasEquivalentes
      ((Glosario.fase_a_procesar (Glosario.fase_a_procesar g texto b) texto
          b).obtener_entrada t)
      ((Glosario.fase_a_procesar g texto b).obtener_entrada t) ∧
    (Glosario.fase_a_procesar (Glosario.fase_a_procesar g texto b) texto
        b).obtener_entrada t =
      ((Glosario.fase_a_procesar g texto b).obtener_entrada t).map
        (fun e => { e with ocurrencias := e.ocurrencias ++ idsDe t 0 b }) := by
  refine ⟨?_, ?_, ?_⟩
  · apply fase_a_bucle_claves
    intro x hx
    exact fase_a_bucle_existencia ⟨x, hx, rfl⟩
  · by_cases hmem : ∃ x ∈ b, x.1 = t
    · have hsome : ((Glosario.fase_a_procesar g texto b).obtener_entrada t).isSome :=
        fase_a_bucle_existencia hmem
      cases he1 : (Glosario.fase_a_procesar g texto b).obtener_entrada t with
      | none =>
        rw [he1] at hsome
        simp at hsome
      | some e1 =>
        rw [show (Glosario.fase_a_procesar (Glosario.fase_a_procesar g texto b) texto
            b).obtener_entrada t =
            some ({ e1 with ocurrencias := e1.ocurrencias ++ idsDe t 0 b }) from
          fase_a_bucle_existente he1]
        have hsub : ∀ j ∈ idsDe t 0 b, j ∈ e1.ocurrencias := by
          cases hg0 : g.obtener_entrada t with
          | some e0 =>
            have hcomb : (Glosario.fase_a_procesar g texto b).obtener_entrada t =
                some ({ e0 with ocurrencias := e0.ocurrencias ++ idsDe t 0 b }) :=
              fase_a_bucle_existente hg0
            rw [he1] at hcomb
            injection hcomb with hcomb
            rw [hcomb]
            intro j hj
            simp [hj]
          | none =>
            rcases fase_a_bucle_nueva b (i := 0) hg0 with ⟨ha, _⟩ | ⟨cat, hc⟩
            · rw [show (Glosario.fase_a_bucle g 0 b).obtener_entrada t =
                  (Glosario.fase_a_procesar g texto b).obtener_entrada t from rfl,
                he1] at ha
              cases ha
            · rw [show (Glosario.fase_a_bucle g 0 b).obtener_entrada t =
                  (Glosario.fase_a_procesar g texto b).obtener_entrada t from rfl,
                he1] at hc
              injection hc with hc
              rw [hc]
              intro j hj
              simpa using hj
        show (({ e1 with ocurrencias := e1.ocurrencias ++ idsDe t 0 b } :
            EntradaGlosario).ocurrencias.toFinset = e1.ocurrencias.toFinset) ∧ _
        constructor
        · show (e1.ocurrencias ++ idsDe t 0 b).toFinset = e1.ocurrencias.toFinset
          rw [List.toFinset_append]
          apply Finset.union_eq_left.mpr
          intro j hj
          rw [List.mem_toFinset] at hj
          rw [List.mem_toFinset]
          exact hsub j hj
        · rfl
    · push_neg at hmem
      rw [show (Glosario.fase_a_procesar (Glosario.fase_a_procesar g texto b) texto
          b).obtener_entrada t =
          (Glosario.fase_a_procesar g texto b).obtener_entrada t from
        fase_a_bucle_ausente hmem]
      exact ocurrenciasEquivalentes_refl _
  · cases he1 : (Glosario.fase_a_procesar g texto b).obtener_entrada t with
    | none =>
      rw [Option.map_none']
      by_cases hmem : ∃ x ∈ b, x.1 = t
      · have hsome := fase_a_bucle_existencia (g := g) (i := 0) hmem
        rw [show (Glosario.fase_a_bucle g 0 b).obtener_entrada t =
            (Glosario.fase_a_procesar g texto b).obtener_entrada t from rfl, he1] at hsome
        simp at hsome
      · push_neg at hmem
        exact fase_a_bucle_ausente hmem |>.trans he1
    | some e1 =>
      rw [Option.map_some']
      exact fase_a_bucle_existente he1

-- ══════════════════════════════════════════════════════════════
-- Claim C7
-- ══════════════════════════════════════════════════════════════

/-- Counterexample to claim C7: for reason COLLISION with the non-empty
ranked candidate list ["general", "jefe"], the resolver returns the token
unchanged ("amr"), not the first candidate — the `candidatos` argument is
never read by the source body. -/
theorem C7_colision_contraejemplo :
    (ProcesadorCasosDificiles.procesar
        (SlotN.nuevo "amr" CategoriaGramatical.SUSTANTIVO 0)
        Reason.COLLISION Glosario.vacio (some ["general", "jefe"])).n_base = "amr" ∧
    "amr" ≠ "general" := by
  decide

/-- Claim C7 as amended: the difficult-case resolver is a pure function of
the slot and reason alone — its result is independent of the glossary and
of the candidate list, and (having no glossary in its result type) it
mutates nothing; for NO_ROOT it returns the token transliterated through
the fixed substitution table, stripped of trailing hyphens, with the
morphological suffix "-ado" appended; for COLLISION it ignores the
candidate list and returns the token unchanged. -/
theorem C7_casos_dificiles_enmendada (slot : SlotN) (g1 g2 : Glosario)
    (c1 c2 : Option (List String)) (reason : Reason) :
    ProcesadorCasosDificiles.procesar slot reason g1 c1 =
      ProcesadorCasosDificiles.procesar slot reason g2 c2 ∧
    (ProcesadorCasosDificiles.procesar slot Reason.NO_ROOT g1 c1).n_base =
      (⟨((transliterar slot.token_src).data.reverse.dropWhile
          (fun c => c == '-')).reverse⟩ : String) ++ "-ado" ∧
    (ProcesadorCasosDificiles.procesar slot Reason.COLLISION g1 c1).n_base =
      slot.token_src ∧
    (ProcesadorCasosDificiles.procesar slot Reason.COLLISION g1 c1).exito = true :=
  ⟨rfl, rfl, rfl, rfl⟩

-- ══════════════════════════════════════════════════════════════
-- Helper lemmas: Python string primitives (command parsing)
-- ══════════════════════════════════════════════════════════════

theorem dropWhile_sin {p : Char → Bool} {cs : List Char}
    (h : ∀ c ∈ cs, p c = false) : cs.dropWhile p = cs := by
  cases cs with
  | nil => rfl
  | cons c l => simp [List.dropWhile_cons, h c (List.mem_cons_self _ _)]

theorem quitaExtremos_sin {p : Char → Bool} {cs : List Char}
    (h : ∀ c ∈ cs, p c = false) : quitaExtremos p cs = cs := by
  unfold quitaExtremos
  rw [dropWhile_sin h,
    dropWhile_sin (fun c hc => h c (List.mem_reverse.mp hc)),
    List.reverse_reverse]

theorem quitaExtremos_cabeza_cola {p : Char → Bool} (a : Char) (l : List Char)
    (b : Char) (ha : p a = false) (hb : p b = false) :
    quitaExtremos p (a :: (l ++ [b])) = a :: (l ++ [b]) := by
  unfold quitaExtremos
  rw [List.dropWhile_cons, ha]
  simp only [Bool.false_eq_true, if_false]
  have hrev : (a :: (l ++ [b])).reverse = b :: (l.reverse ++ [a]) := by
    simp
  rw [hrev, List.dropWhile_cons, hb]
  simp only [Bool.false_eq_true, if_false]
  rw [← hrev, List.reverse_reverse]

theorem quitaExtremos_envoltura {p : Char → Bool} (a b : Char) (l : List Char)
    (hpa : p a = true) (hpb : p b = true) (hl : ∀ c ∈ l, p c = false) :
    quitaExtremos p (a :: (l ++ [b])) = l := by
  unfold quitaExtremos
  rw [List.dropWhile_cons, hpa]
  simp only [if_true]
  cases l with
  | nil =>
    simp [List.dropWhile_cons, hpb]
  | cons c l' =>
    rw [List.cons_append, List.dropWhile_cons, hl c (List.mem_cons_self _ _)]
    simp only [Bool.false_eq_true, if_false]
    have hrev : (c :: (l' ++ [b])).reverse = b :: (l'.reverse ++ [c]) := by
      simp
    rw [hrev, List.dropWhile_cons, hpb]
    simp only [if_true]
    have hfail : ∀ x ∈ l'.reverse ++ [c], p x = false := by
      intro x hx
      rcases List.mem_append.mp hx with h1 | h2
      · exact hl x (List.mem_cons_of_mem _ (List.mem_reverse.mp h1))
      · rw [List.mem_singleton.mp h2]
        exact hl c (List.mem_cons_self _ _)
    rw [dropWhile_sin hfail]
    simp

theorem parteUnaVez_append {sep : Char} {l1 : List Char} (l2 : List Char)
    (h : ∀ c ∈ l1, c ≠ sep) :
    parteUnaVez sep (l1 ++ sep :: l2) = (l1, some l2) := by
  induction l1 with
  | nil =>
    unfold parteUnaVez
    rw [List.nil_append]
    simp
  | cons c l ih =>
    show parteUnaVez sep (c :: (l ++ sep :: l2)) = _
    unfold parteUnaVez
    rw [if_neg (h c (List.mem_cons_self _ _))]
    dsimp only
    rw [ih (fun c' hc' => h c' (List.mem_cons_of_mem _ hc'))]

theorem esLimpio_propiedades {s : String} (h : esLimpio s = true) :
    s.data ≠ [] ∧ ∀ c ∈ s.data,
      c.isWhitespace = false ∧ c ≠ '=' ∧ c ≠ '[' ∧ c ≠ ']' := by
  unfold esLimpio at h
  rw [Bool.and_eq_true] at h
  obtain ⟨h1, h2⟩ := h
  rw [List.all_eq_true] at h2
  constructor
  · intro hnil
    have hs : s = "" := by
      apply String.ext
      rw [hnil]
    rw [hs] at h1
    simp at h1
  · intro c hc
    have := h2 c hc
    rw [Bool.and_eq_true, Bool.and_eq_true, Bool.and_eq_true] at this
    obtain ⟨⟨⟨hw, he⟩, hb1⟩, hb2⟩ := this
    refine ⟨?_, ?_, ?_, ?_⟩
    · cases hx : c.isWhitespace
      · rfl
      · rw [hx] at hw; cases hw
    · intro heq
      rw [heq] at he
      simp at he
    · intro heq
      rw [heq] at hb1
      simp at hb1
    · intro heq
      rw [heq] at hb2
      simp at hb2

-- ══════════════════════════════════════════════════════════════
-- Helper lemmas: the command processor
-- ══════════════════════════════════════════════════════════════

theorem procesar_actualiza (g : Glosario) (t v : String)
    (ht : esLimpio t = true) (hv : esLimpio v = true) :
    ProcesadorComandos.procesar ⟨g, none⟩ ("[ACTUALIZA " ++ t ++ "=" ++ v ++ "]") =
      (⟨g, some (Confirmacion.actualizar t v)⟩,
       ⟨true, "¿Cambiar " ++ t ++ " a " ++ v ++ "?", true⟩) := by
  obtain ⟨htne, htc⟩ := esLimpio_propiedades ht
  obtain ⟨hvne, hvc⟩ := esLimpio_propiedades hv
  have hdata : ("[ACTUALIZA " ++ t ++ "=" ++ v ++ "]").data =
      '[' :: (("ACTUALIZA".data ++ ' ' :: (t.data ++ '=' :: v.data)) ++ [']']) := by
    rw [String.data_append, String.data_append, String.data_append,
      String.data_append]
    rw [show ("[ACTUALIZA " : String).data = '[' :: ("ACTUALIZA".data ++ [' ']) from rfl,
      show ("=" : String).data = ['='] from rfl,
      show ("]" : String).data = [']'] from rfl]
    simp
  have hstrip : pyStrip ("[ACTUALIZA " ++ t ++ "=" ++ v ++ "]") =
      ("[ACTUALIZA " ++ t ++ "=" ++ v ++ "]") := by
    apply String.ext
    show quitaExtremos Char.isWhitespace ("[ACTUALIZA " ++ t ++ "=" ++ v ++ "]").data =
      ("[ACTUALIZA " ++ t ++ "=" ++ v ++ "]").data
    rw [hdata]
    exact quitaExtremos_cabeza_cola '[' _ ']' (by decide) (by decide)
  have hlimpio : ∀ c ∈ "ACTUALIZA".data ++ ' ' :: (t.data ++ '=' :: v.data),
      (c == '[' || c == ']') = false := by
    intro c hc
    rcases List.mem_append.mp hc with h1 | h2
    · have hfijo : ∀ x ∈ "ACTUALIZA".data, (x == '[' || x == ']') = false := by decide
      exact hfijo c h1
    · rcases List.mem_cons.mp h2 with h3 | h4
      · rw [h3]
        decide
      · rcases List.mem_append.mp h4 with h5 | h6
        · obtain ⟨_, _, hb1, hb2⟩ := htc c h5
          simp [hb1, hb2]
        · rcases List.mem_cons.mp h6 with h7 | h8
          · rw [h7]
            decide
          · obtain ⟨_, _, hb1, hb2⟩ := hvc c h8
            simp [hb1, hb2]
  have hcorch : pyStripCorchetes ("[ACTUALIZA " ++ t ++ "=" ++ v ++ "]") =
      ⟨"ACTUALIZA".data ++ ' ' :: (t.data ++ '=' :: v.data)⟩ := by
    apply String.ext
    show quitaExtremos (fun c => c == '[' || c == ']')
        ("[ACTUALIZA " ++ t ++ "=" ++ v ++ "]").data = _
    rw [hdata]
    exact quitaExtremos_envoltura '[' ']' _ (by decide) (by decide) hlimpio
  have hsplit1 : pyParteUnaVez
      (⟨"ACTUALIZA".data ++ ' ' :: (t.data ++ '=' :: v.data)⟩ : String) ' ' =
      ("ACTUALIZA", some (⟨t.data ++ '=' :: v.data⟩ : String)) := by
    unfold pyParteUnaVez
    rw [show ((⟨"ACTUALIZA".data ++ ' ' :: (t.data ++ '=' :: v.data)⟩ : String)).data =
      "ACTUALIZA".data ++ ' ' :: (t.data ++ '=' :: v.data) from rfl]
    rw [parteUnaVez_append _ (by decide)]
    rfl
  have hsplit2 : pyParteUnaVez (⟨t.data ++ '=' :: v.data⟩ : String) '=' =
      (t, some v) := by
    unfold pyParteUnaVez
    rw [show ((⟨t.data ++ '=' :: v.data⟩ : String)).data =
      t.data ++ '=' :: v.data from rfl]
    rw [parteUnaVez_append _ (fun c hc => (htc c hc).2.1)]
    rfl
  have hstript : pyStrip t = t := by
    apply String.ext
    show quitaExtremos Char.isWhitespace t.data = t.data
    exact quitaExtremos_sin (fun c hc => (htc c hc).1)
  have hstripv : pyStrip v = v := by
    apply String.ext
    show quitaExtremos Char.isWhitespace v.data = v.data
    exact quitaExtremos_sin (fun c hc => (hvc c hc).1)
  unfold ProcesadorComandos.procesar
  rw [hstrip]
  dsimp only
  rw [hcorch, hsplit1]
  dsimp only
  rw [show pyUpper "ACTUALIZA" = "ACTUALIZA" from rfl]
  rw [show (COMANDOS.find? (fun p => "ACTUALIZA" == p.1 ||
      p.2.contains (pyLower "ACTUALIZA"))) = some ("ACTUALIZA", ["actualiza"]) from rfl]
  dsimp only
  rw [if_neg (by decide), if_neg (by decide), if_neg (by decide), if_neg (by decide),
    if_pos rfl]
  rw [show (some (⟨t.data ++ '=' :: v.data⟩ : String)).getD "" =
    (⟨t.data ++ '=' :: v.data⟩ : String) from rfl]
  rw [hsplit2]
  dsimp only
  rw [hstript, hstripv]

theorem procesar_elimina (g : Glosario) (t : String) (ht : esLimpio t = true) :
    ProcesadorComandos.procesar ⟨g, none⟩ ("[ELIMINA " ++ t ++ "]") =
      (⟨g, some (Confirmacion.eliminar t)⟩, ⟨true, "¿Eliminar " ++ t ++ "?", true⟩) := by
  obtain ⟨htne, htc⟩ := esLimpio_propiedades ht
  have hdata : ("[ELIMINA " ++ t ++ "]").data =
      '[' :: (("ELIMINA".data ++ ' ' :: t.data) ++ [']']) := by
    rw [String.data_append, String.data_append]
    rw [show ("[ELIMINA " : String).data = '[' :: ("ELIMINA".data ++ [' ']) from rfl,
      show ("]" : String).data = [']'] from rfl]
    simp
  have hstrip : pyStrip ("[ELIMINA " ++ t ++ "]") = ("[ELIMINA " ++ t ++ "]") := by
    apply String.ext
    show quitaExtremos Char.isWhitespace ("[ELIMINA " ++ t ++ "]").data =
      ("[ELIMINA " ++ t ++ "]").data
    rw [hdata]
    exact quitaExtremos_cabeza_cola '[' _ ']' (by decide) (by decide)
  have hlimpio : ∀ c ∈ "ELIMINA".data ++ ' ' :: t.data,
      (c == '[' || c == ']') = false := by
    intro c hc
    rcases List.mem_append.mp hc with h1 | h2
    · have hfijo : ∀ x ∈ "ELIMINA".data, (x == '[' || x == ']') = false := by decide
      exact hfijo c h1
    · rcases List.mem_cons.mp h2 with h3 | h4
      · rw [h3]
        decide
      · obtain ⟨_, _, hb1, hb2⟩ := htc c h4
        simp [hb1, hb2]
  have hcorch : pyStripCorchetes ("[ELIMINA " ++ t ++ "]") =
      ⟨"ELIMINA".data ++ ' ' :: t.data⟩ := by
    apply String.ext
    show quitaExtremos (fun c => c == '[' || c == ']')
        ("[ELIMINA " ++ t ++ "]").data = _
    rw [hdata]
    exact quitaExtremos_envoltura '[' ']' _ (by decide) (by decide) hlimpio
  have hsplit1 : pyParteUnaVez (⟨"ELIMINA".data ++ ' ' :: t.data⟩ : String) ' ' =
      ("ELIMINA", some t) := by
    unfold pyParteUnaVez
    rw [show ((⟨"ELIMINA".data ++ ' ' :: t.data⟩ : String)).data =
      "ELIMINA".data ++ ' ' :: t.data from rfl]
    rw [parteUnaVez_append _ (by decide)]
    rfl
  have hstript : pyStrip t = t := by
    apply String.ext
    show quitaExtremos Char.isWhitespace t.data = t.data
    exact quitaExtremos_sin (fun c hc => (htc c hc).1)
  unfold ProcesadorComandos.procesar
  rw [hstrip]
  dsimp only
  rw [hcorch, hsplit1]
  dsimp only
  rw [show pyUpper "ELIMINA" = "ELIMINA" from rfl]
  rw [show (COMANDOS.find? (fun p => "ELIMINA" == p.1 ||
      p.2.contains (pyLower "ELIMINA"))) = some ("ELIMINA", ["elimina"]) from rfl]
  dsimp only
  rw [if_neg (by decide), if_neg (by decide), if_neg (by decide), if_neg (by decide),
    if_neg (by decide), if_neg (by decide), if_neg (by decide), if_pos rfl]
  rw [show (some t).getD "" = t from rfl]
  rw [hstript]

theorem procesar_confirma (g : Glosario) (c : Confirmacion) (resp : String) :
    ProcesadorComandos.procesar ⟨g, some c⟩ resp =
      (if ["si", "s", "yes", "y"].contains (pyLower (pyStrip resp)) then
        (⟨(ejecutarConfirmacion g c).1, none⟩, (ejecutarConfirmacion g c).2)
      else (⟨g, none⟩, ⟨true, "Cancelado", false⟩)) := rfl

theorem actualizar_entrada_existente {g : Glosario} {t v : String}
    {e : EntradaGlosario} (he : g.obtener_entrada t = some e) :
    (g.actualizar_entrada t v).1.obtener_entrada t =
      some { e with token_tgt := some v, etiqueta := some "FORZADO_USUARIO" } ∧
    (g.actualizar_entrada t v).2.1 = true ∧
    (g.actualizar_entrada t v).2.2 = e.ocurrencias.length := by
  unfold Glosario.actualizar_entrada
  rw [he]
  refine ⟨?_, rfl, rfl⟩
  show dictBusca (dictPon g.entradas t _) t = _
  rw [dictBusca_dictPon]
  simp

-- ══════════════════════════════════════════════════════════════
-- Claim C8
-- ══════════════════════════════════════════════════════════════

/-- Claim C8: after an UPDATE (ACTUALIZA) or DELETE (ELIMINA) command the
processor holds exactly one pending action (the single `confirmacion`
slot) and the glossary is untouched; the next input executes the pending
action exactly when, stripped and lower-cased, it is one of
"si"/"s"/"yes"/"y", and any other input cancels it with no glossary
mutation; a confirmed UPDATE on a registered token overwrites the token's
target and tags the entry FORZADO_USUARIO. -/
theorem C8_confirmacion_dos_pasos (g : Glosario) (t v resp : String)
    (c : Confirmacion) (e : EntradaGlosario)
    (ht : esLimpio t = true) (hv : esLimpio v = true)
    (he : g.obtener_entrada t = some e) :
    (ProcesadorComandos.procesar ⟨g, none⟩ ("[ACTUALIZA " ++ t ++ "=" ++ v ++ "]")).1 =
      ⟨g, some (Confirmacion.actualizar t v)⟩ ∧
    (ProcesadorComandos.procesar ⟨g, none⟩
        ("[ACTUALIZA " ++ t ++ "=" ++ v ++ "]")).2.requiere_confirmacion = true ∧
    (ProcesadorComandos.procesar ⟨g, none⟩ ("[ELIMINA " ++ t ++ "]")).1 =
      ⟨g, some (Confirmacion.eliminar t)⟩ ∧
    (ProcesadorComandos.procesar ⟨g, none⟩
        ("[ELIMINA " ++ t ++ "]")).2.requiere_confirmacion = true ∧
    ProcesadorComandos.procesar ⟨g, some c⟩ resp =
      (if ["si", "s", "yes", "y"].contains (pyLower (pyStrip resp)) then
        (⟨(ejecutarConfirmacion g c).1, none⟩, (ejecutarConfirmacion g c).2)
      else (⟨g, none⟩, ⟨true, "Cancelado", false⟩)) ∧
    (ejecutarConfirmacion g (Confirmacion.actualizar t v)).1.obtener_entrada t =
      some { e with token_tgt := some v, etiqueta := some "FORZADO_USUARIO" } := by
  refine ⟨?_, ?_, ?_, ?_, procesar_confirma g c resp, ?_⟩
  · rw [procesar_actualiza g t v ht hv]
  · rw [procesar_actualiza g t v ht hv]
  · rw [procesar_elimina g t ht]
  · rw [procesar_elimina g t ht]
  · show (g.actualizar_entrada t v).1.obtener_entrada t = _
    exact (actualizar_entrada_existente he).1

/-- Witness for C8: the example glossary, token "amr", new value "mandato"
and the non-affirmative reply "no". -/
theorem C8_confirmacion_dos_pasos_witness :
    (ProcesadorComandos.procesar ⟨glosarioEjemplo, none⟩ "[ACTUALIZA amr=mandato]").1 =
      ⟨glosarioEjemplo, some (Confirmacion.actualizar "amr" "mandato")⟩ ∧
    (ProcesadorComandos.procesar ⟨glosarioEjemplo, none⟩
        "[ACTUALIZA amr=mandato]").2.requiere_confirmacion = true ∧
    (ProcesadorComandos.procesar ⟨glosarioEjemplo, none⟩ "[ELIMINA amr]").1 =
      ⟨glosarioEjemplo, some (Confirmacion.eliminar "amr")⟩ ∧
    (ProcesadorComandos.procesar ⟨glosarioEjemplo, none⟩
        "[ELIMINA amr]").2.requiere_confirmacion = true ∧
    ProcesadorComandos.procesar
        ⟨glosarioEjemplo, some (Confirmacion.actualizar "amr" "mandato")⟩ "no" =
      (if ["si", "s", "yes", "y"].contains (pyLower (pyStrip "no")) then
        (⟨(ejecutarConfirmacion glosarioEjemplo
            (Confirmacion.actualizar "amr" "mandato")).1, none⟩,
         (ejecutarConfirmacion glosarioEjemplo
            (Confirmacion.actualizar "amr" "mandato")).2)
      else (⟨glosarioEjemplo, none⟩, ⟨true, "Cancelado", false⟩)) ∧
    (ejecutarConfirmacion glosarioEjemplo
        (Confirmacion.actualizar "amr" "mandato")).1.obtener_entrada "amr" =
      some ⟨"amr", TokenCategoria.NUCLEO, some "mandato", TokenStatus.ASIGNADO, 2,
        [0], some "FORZADO_USUARIO", []⟩ :=
  C8_confirmacion_dos_pasos glosarioEjemplo "amr" "mandato" "no"
    (Confirmacion.actualizar "amr" "mandato")
    ⟨"amr", TokenCategoria.NUCLEO, some "orden", TokenStatus.ASIGNADO, 2, [0],
      some "AUTO", []⟩
    (by decide) (by decide) (by decide)

-- ══════════════════════════════════════════════════════════════
-- Helper lemmas: structure of the pipeline-built source matrix
-- ══════════════════════════════════════════════════════════════

theorem listaModifica_get_mismo {α : Type} {l : List α} {i : Nat}
    {f : α → α} {a : α} (h : l[i]? = some a) :
    (listaModifica l i f)[i]? = some (f a) := by
  unfold listaModifica
  rw [h]
  have hlt : i < l.length := (List.getElem?_eq_some.mp h).1
  rw [List.getElem?_set_eq_of_lt _ hlt]

theorem listaModifica_get_otro {α : Type} (l : List α) (i : Nat)
    (f : α → α) (j : Nat) (hij : i ≠ j) :
    (listaModifica l i f)[j]? = l[j]? := by
  unfold listaModifica
  cases h : l[i]? with
  | none => rfl
  | some a => rw [List.getElem?_set_ne hij]

theorem estructura_vacia : EstructuraFuente MatrizFuente.vacia [] := by
  refine ⟨rfl, rfl, ?_, ?_, ?_⟩
  · intro k t hkt
    simp at hkt
  · intro sn hsn
    cases hsn
  · intro sp hsp
    cases hsp

theorem construirMatrizBucle_estructura (ts : List String) :
    ∀ (hecho : List String) (m : MatrizFuente),
      EstructuraFuente m hecho →
      EstructuraFuente (construirMatrizBucle m hecho.length ts) (hecho ++ ts) := by
  induction ts with
  | nil =>
    intro hecho m hE
    rw [List.append_nil]
    exact hE
  | cons t rest ih =>
    intro hecho m hE
    obtain ⟨hloc, hlen, hcel, hsn, hsp⟩ := hE
    -- the new cell and (in each branch) the new slot
    have hget_nueva : (m.celdas ++ [CeldaMatriz.nueva hecho.length t])[hecho.length]? =
        some (CeldaMatriz.nueva hecho.length t) := by
      rw [← hlen]
      exact List.getElem?_concat_length _ _
    have hpaso : EstructuraFuente
        (if (ClasificadorGramatical.clasificar t).1 = TokenCategoria.NUCLEO then
          (m.agregar_celda t hecho.length).agregar_slot_n
            (SlotN.nuevo t (ClasificadorGramatical.clasificar t).2 hecho.length)
        else
          (m.agregar_celda t hecho.length).agregar_slot_p
            (SlotP.nuevo t (ClasificadorGramatical.clasificar t).2 hecho.length))
        (hecho ++ [t]) := by
      by_cases hcat : (ClasificadorGramatical.clasificar t).1 = TokenCategoria.NUCLEO
      · rw [if_pos hcat]
        refine ⟨hloc, ?_, ?_, ?_, ?_⟩
        · show (listaModifica (m.celdas ++ [CeldaMatriz.nueva hecho.length t])
            hecho.length _).length = (hecho ++ [t]).length
          rw [listaModifica_longitud]
          simp [hlen]
        · intro k tk hk
          by_cases hkfin : k = hecho.length
          · subst hkfin
            rw [List.getElem?_concat_length] at hk
            injection hk with hk
            subst hk
            refine ⟨⟨hecho.length, t, none, "normal",
              some (SlotRef.n m.slots_n.length)⟩, ?_, rfl, rfl, rfl, rfl, ?_⟩
            · show (listaModifica (m.celdas ++ [CeldaMatriz.nueva hecho.length t])
                hecho.length _)[hecho.length]? = _
              rw [listaModifica_get_mismo hget_nueva]
              rfl
            · rw [if_pos hcat]
              refine ⟨m.slots_n.length, rfl, ?_⟩
              show (m.slots_n ++ [SlotN.nuevo t (ClasificadorGramatical.clasificar t).2
                hecho.length])[m.slots_n.length]? = _
              exact List.getElem?_concat_length _ _
          · have hklt : k < hecho.length := by
              have := (List.getElem?_eq_some.mp hk).1
              simp at this
              omega
            have hkold : hecho[k]? = some tk := by
              rw [← hk, List.getElem?_append_left hklt]
            obtain ⟨c, hc, hcpos, hcsrc, hctgt, hctipo, hcslot⟩ := hcel k tk hkold
            refine ⟨c, ?_, hcpos, hcsrc, hctgt, hctipo, ?_⟩
            · show (listaModifica (m.celdas ++ [CeldaMatriz.nueva hecho.length t])
                hecho.length _)[k]? = some c
              rw [listaModifica_get_otro _ _ _ _ (fun h => hkfin h.symm)]
              rw [List.getElem?_append_left (by omega), hc]
            · by_cases hcat2 : (ClasificadorGramatical.clasificar tk).1 = TokenCategoria.NUCLEO
              · rw [if_pos hcat2] at hcslot
                rw [if_pos hcat2]
                obtain ⟨j, hj1, hj2⟩ := hcslot
                refine ⟨j, hj1, ?_⟩
                show (m.slots_n ++ [_])[j]? = _
                rw [List.getElem?_append_left (by
                  have := (List.getElem?_eq_some.mp hj2).1
                  omega)]
                exact hj2
              · rw [if_neg hcat2] at hcslot
                rw [if_neg hcat2]
                exact hcslot
        · intro sn hsnmem
          show ∃ tk, (hecho ++ [t])[sn.pos_index]? = some tk ∧ _
          rcases List.mem_append.mp hsnmem with hold | hnew
          · obtain ⟨tk, htk, hsn2, hsn3⟩ := hsn sn hold
            refine ⟨tk, ?_, hsn2, hsn3⟩
            rw [List.getElem?_append_left (by
              have := (List.getElem?_eq_some.mp htk).1
              omega)]
            exact htk
          · rw [List.mem_singleton.mp hnew]
            refine ⟨t, ?_, rfl, hcat⟩
            show (hecho ++ [t])[hecho.length]? = some t
            exact List.getElem?_concat_length _ _
        · intro sp hspmem
          obtain ⟨tk, htk, hsp2, hsp3⟩ := hsp sp hspmem
          refine ⟨tk, ?_, hsp2, hsp3⟩
          rw [List.getElem?_append_left (by
            have := (List.getElem?_eq_some.mp htk).1
            omega)]
          exact htk
      · rw [if_neg hcat]
        refine ⟨hloc, ?_, ?_, ?_, ?_⟩
        · show (listaModifica (m.celdas ++ [CeldaMatriz.nueva hecho.length t])
            hecho.length _).length = (hecho ++ [t]).length
          rw [listaModifica_longitud]
          simp [hlen]
        · intro k tk hk
          by_cases hkfin : k = hecho.length
          · subst hkfin
            rw [List.getElem?_concat_length] at hk
            injection hk with hk
            subst hk
            refine ⟨⟨hecho.length, t, none, "normal",
              some (SlotRef.p m.slots_p.length)⟩, ?_, rfl, rfl, rfl, rfl, ?_⟩
            · show (listaModifica (m.celdas ++ [CeldaMatriz.nueva hecho.length t])
                hecho.length _)[hecho.length]? = _
              rw [listaModifica_get_mismo hget_nueva]
              rfl
            · rw [if_neg hcat]
              refine ⟨m.slots_p.length, rfl, ?_⟩
              show (m.slots_p ++ [SlotP.nuevo t (ClasificadorGramatical.clasificar t).2
                hecho.length])[m.slots_p.length]? = _
              exact List.getElem?_concat_length _ _
          · have hklt : k < hecho.length := by
              have := (List.getElem?_eq_some.mp hk).1
              simp at this
              omega
            have hkold : hecho[k]? = some tk := by
              rw [← hk, List.getElem?_append_left hklt]
            obtain ⟨c, hc, hcpos, hcsrc, hctgt, hctipo, hcslot⟩ := hcel k tk hkold
            refine ⟨c, ?_, hcpos, hcsrc, hctgt, hctipo, ?_⟩
            · show (listaModifica (m.celdas ++ [CeldaMatriz.nueva hecho.length t])
                hecho.length _)[k]? = some c
              rw [listaModifica_get_otro _ _ _ _ (fun h => hkfin h.symm)]
              rw [List.getElem?_append_left (by omega), hc]
            · by_cases hcat2 : (ClasificadorGramatical.clasificar tk).1 = TokenCategoria.NUCLEO
              · rw [if_pos hcat2] at hcslot
                rw [if_pos hcat2]
                exact hcslot
              · rw [if_neg hcat2] at hcslot
                rw [if_neg hcat2]
                obtain ⟨j, hj1, hj2⟩ := hcslot
                refine ⟨j, hj1, ?_⟩
                show (m.slots_p ++ [_])[j]? = _
                rw [List.getElem?_append_left (by
                  have := (List.getElem?_eq_some.mp hj2).1
                  omega)]
                exact hj2
        · intro sn hsnmem
          obtain ⟨tk, htk, hsn2, hsn3⟩ := hsn sn hsnmem
          refine ⟨tk, ?_, hsn2, hsn3⟩
          rw [List.getElem?_append_left (by
            have := (List.getElem?_eq_some.mp htk).1
            omega)]
          exact htk
        · intro sp hspmem
          show ∃ tk, (hecho ++ [t])[sp.pos_index]? = some tk ∧ _
          rcases List.mem_append.mp hspmem with hold | hnew
          · obtain ⟨tk, htk, hsp2, hsp3⟩ := hsp sp hold
            refine ⟨tk, ?_, hsp2, hsp3⟩
            rw [List.getElem?_append_left (by
              have := (List.getElem?_eq_some.mp htk).1
              omega)]
            exact htk
          · rw [List.mem_singleton.mp hnew]
            refine ⟨t, ?_, rfl, hcat⟩
            show (hecho ++ [t])[hecho.length]? = some t
            exact List.getElem?_concat_length _ _
    have hih := ih (hecho ++ [t]) _ hpaso
    rw [List.length_append, List.length_singleton] at hih
    rw [List.append_assoc] at hih
    rw [List.singleton_append] at hih
    show EstructuraFuente (construirMatrizBucle m hecho.length (t :: rest)) _
    unfold construirMatrizBucle
    exact hih

theorem construir_estructura (tokens : List String) :
    EstructuraFuente (construirMatrizFuente tokens) tokens := by
  have := construirMatrizBucle_estructura tokens [] MatrizFuente.vacia estructura_vacia
  simpa using this

-- ══════════════════════════════════════════════════════════════
-- Helper lemmas: nucleus phase under a coherent glossary
-- ══════════════════════════════════════════════════════════════

theorem procesar_nucleo_tgt {s : SlotN} {g : Glosario} (hGC : GlosarioCoherente g) :
    (ProcesadorNucleos.procesar s g).token_tgt = some (resolverNucleo s.token_src) := by
  unfold ProcesadorNucleos.procesar
  dsimp only
  cases hg : g.obtener_entrada s.token_src with
  | some entrada =>
    dsimp only
    by_cases hst : entrada.status = TokenStatus.ASIGNADO
    · rw [if_pos hst]
      exact (hGC s.token_src entrada hg hst).1
    · rw [if_neg hst]
      unfold resolverNucleo
      cases hlook : ProcesadorNucleos.etimologia.lookup (pyLower s.token_src) with
      | some v => rfl
      | none => rfl
  | none =>
    dsimp only
    unfold resolverNucleo
    cases hlook : ProcesadorNucleos.etimologia.lookup (pyLower s.token_src) with
    | some v => rfl
    | none => rfl

theorem procesar_nucleo_restart {s : SlotN} {g : Glosario}
    (h : (ProcesadorNucleos.procesar s g).restart = true) :
    ProcesadorNucleos.etimologia.lookup (pyLower s.token_src) = none := by
  unfold ProcesadorNucleos.procesar at h
  dsimp only at h
  cases hg : g.obtener_entrada s.token_src with
  | some entrada =>
    rw [hg] at h
    dsimp only at h
    by_cases hst : entrada.status = TokenStatus.ASIGNADO
    · rw [if_pos hst] at h
      simp at h
    · rw [if_neg hst] at h
      cases hlook : ProcesadorNucleos.etimologia.lookup (pyLower s.token_src) with
      | none => rfl
      | some v =>
        rw [hlook] at h
        simp at h
  | none =>
    rw [hg] at h
    dsimp only at h
    cases hlook : ProcesadorNucleos.etimologia.lookup (pyLower s.token_src) with
    | none => rfl
    | some v =>
      rw [hlook] at h
      simp at h

theorem fase_b_asignar_obtener (g : Glosario) (tok valor : String) (m : Nat)
    (etq : Option String) (fr : Option FuncRole) (t : String) :
    (g.fase_b_asignar tok valor m etq fr).1.obtener_entrada t =
      match g.obtener_entrada tok with
      | none => g.obtener_entrada t
      | some e => if tok = t
          then some { e with token_tgt := some valor, status := TokenStatus.ASIGNADO, margen := m, etiqueta := etq }
          else g.obtener_entrada t := by
  unfold Glosario.fase_b_asignar
  cases hg : g.obtener_entrada tok with
  | none => rfl
  | some e =>
    dsimp only
    show dictBusca (dictPon g.entradas tok _) t = _
    rw [dictBusca_dictPon]
    rfl

theorem fase_b_preserva_coherente {g : Glosario} {tok : String} {m : Nat}
    {etq : Option String} {fr : Option FuncRole}
    (hGC : GlosarioCoherente g)
    (hlook : ProcesadorNucleos.etimologia.lookup (pyLower tok) = none) :
    GlosarioCoherente (g.fase_b_asignar tok (resolverNucleo tok) m etq fr).1 := by
  intro t e hfind hst
  rw [fase_b_asignar_obtener] at hfind
  cases hg : g.obtener_entrada tok with
  | none =>
    rw [hg] at hfind
    exact hGC t e hfind hst
  | some e0 =>
    rw [hg] at hfind
    dsimp only at hfind
    by_cases htt : tok = t
    · subst htt
      rw [if_pos rfl] at hfind
      injection hfind with hfind
      rw [← hfind]
      exact ⟨rfl, hlook⟩
    · rw [if_neg htt] at hfind
      exact hGC t e hfind hst

theorem fase_b_preserva_otro {g : Glosario} {tok valor : String} {m : Nat}
    {etq : Option String} {fr : Option FuncRole} {t : String} (hne : tok ≠ t) :
    (g.fase_b_asignar tok valor m etq fr).1.obtener_entrada t =
      g.obtener_entrada t := by
  rw [fase_b_asignar_obtener]
  cases hg : g.obtener_entrada tok with
  | none => rfl
  | some e0 =>
    dsimp only
    rw [if_neg hne]

theorem f2_paso_coherente {g : Glosario} {s : SlotN} (mt : MatrizTarget)
    (hGC : GlosarioCoherente g) (hnb : s.es_bloqueado = false) :
    ∃ g', Core.f2_paso g mt s =
        some (mt, { s with token_tgt := some (resolverNucleo s.token_src) }, g') ∧
      GlosarioCoherente g' ∧
      ∀ t0, ProcesadorNucleos.etimologia.lookup (pyLower t0) ≠ none →
        g'.obtener_entrada t0 = g.obtener_entrada t0 := by
  have htgt := procesar_nucleo_tgt (s := s) (g := g) hGC
  have hb : ¬(s.es_bloqueado = true) := by simp [hnb]
  by_cases hres : (ProcesadorNucleos.procesar s g).restart = true
  · have hlook := procesar_nucleo_restart hres
    refine ⟨(g.fase_b_asignar s.token_src (resolverNucleo s.token_src) 1
        (some "AUTO_NEOLOGISMO") none).1, ?_, fase_b_preserva_coherente hGC hlook, ?_⟩
    · unfold Core.f2_paso
      rw [if_neg hb]
      dsimp only
      rw [if_pos hres, htgt]
      rfl
    · intro t0 ht0
      refine fase_b_preserva_otro (fun heq => ht0 ?_)
      rw [← heq]
      exact hlook
  · refine ⟨g, ?_, hGC, fun _ _ => rfl⟩
    unfold Core.f2_paso
    rw [if_neg hb]
    dsimp only
    rw [if_neg hres, htgt]
    rfl

theorem faseNucleos_coherente {slots : List SlotN} {g : Glosario} (mt : MatrizTarget)
    (hGC : GlosarioCoherente g) (hnb : ∀ s ∈ slots, s.es_bloqueado = false) :
    ∃ g', Core.faseNucleos g mt slots =
        some (mt, slots.map
          (fun s => { s with token_tgt := some (resolverNucleo s.token_src) }), g') ∧
      GlosarioCoherente g' ∧
      ∀ t0, ProcesadorNucleos.etimologia.lookup (pyLower t0) ≠ none →
        g'.obtener_entrada t0 = g.obtener_entrada t0 := by
  induction slots generalizing g with
  | nil => exact ⟨g, rfl, hGC, fun _ _ => rfl⟩
  | cons s rest ih =>
    obtain ⟨g1, hpaso, hGC1, hpres1⟩ :=
      f2_paso_coherente mt hGC (hnb s (List.mem_cons_self _ _))
    obtain ⟨g2, hrest, hGC2, hpres2⟩ :=
      ih hGC1 (fun x hx => hnb x (List.mem_cons_of_mem _ hx))
    refine ⟨g2, ?_, hGC2, fun t0 ht0 => (hpres2 t0 ht0).trans (hpres1 t0 ht0)⟩
    show (Core.f2_paso g mt s).bind _ = _
    rw [hpaso]
    show (Core.faseNucleos g1 mt rest).map _ = _
    rw [hrest]
    rfl

-- ══════════════════════════════════════════════════════════════
-- Helper lemmas: mapping and particle phases over the built matrix
-- ══════════════════════════════════════════════════════════════

theorem faseMapeo_existe {ms : MatrizFuente} (cs : List CeldaMatriz) (i : Nat)
    (mt : MatrizTarget) (h : ∀ k, k < cs.length → i + k < mt.celdas.length) :
    ∃ mt2, Core.faseMapeo ms i cs mt = some mt2 := by
  induction cs generalizing i mt with
  | nil => exact ⟨mt, rfl⟩
  | cons c rest ih =>
    obtain ⟨mta, hmta⟩ := modificaCelda_existe mt i (Core.f3_celda ms i c)
      (by have := h 0 (by simp); omega)
    have hlen := modificaCelda_longitud hmta
    obtain ⟨mt2, hmt2⟩ := ih (i + 1) mta (fun k hk => by
      rw [hlen]
      have := h (k + 1) (by simp; omega)
      omega)
    refine ⟨mt2, ?_⟩
    show (mt.modificaCelda i _).bind _ = some mt2
    rw [hmta]
    exact hmt2

theorem faseMapeo_estructura {tokens : List String} {mtx_s : MatrizFuente}
    (hE : EstructuraFuente mtx_s tokens) :
    ∃ mt2, Core.faseMapeo
        { mtx_s with slots_n := mtx_s.slots_n.map (fun s => { s with token_tgt := some (resolverNucleo s.token_src) }) }
        0 mtx_s.celdas (MatrizTarget.nueva mtx_s.size) = some mt2 ∧
      mt2.celdas.length = tokens.length ∧
      ∀ k t, tokens[k]? = some t →
        mt2.celdas[k]? = some (⟨k, t,
          (if (ClasificadorGramatical.clasificar t).1 = TokenCategoria.NUCLEO then
            some (resolverNucleo t) else none), "normal", none⟩ : CeldaMatriz) := by
  obtain ⟨hloc, hlen, hcel, hsn, hsp⟩ := hE
  obtain ⟨mt2, hmt2⟩ := faseMapeo_existe mtx_s.celdas 0 (MatrizTarget.nueva mtx_s.size)
    (fun k hk => by
      rw [nueva_longitud]
      show 0 + k < mtx_s.celdas.length
      omega)
  refine ⟨mt2, hmt2, ?_, ?_⟩
  · rw [faseMapeo_longitud hmt2, nueva_longitud]
    show mtx_s.celdas.length = tokens.length
    exact hlen
  · intro k t hkt
    have hklt : k < tokens.length := (List.getElem?_eq_some.mp hkt).1
    obtain ⟨c, hc, hcpos, hcsrc, hctgt, hctipo, hcslot⟩ := hcel k t hkt
    have hlocP : MatrizFuente.obtener_locucion_en_pos
        { mtx_s with slots_n := mtx_s.slots_n.map (fun s => { s with token_tgt := some (resolverNucleo s.token_src) }) } k = none := by
      unfold MatrizFuente.obtener_locucion_en_pos
      show ((mtx_s.locuciones.map Prod.snd).find? _) = none
      rw [hloc]
      rfl
    have hf3 : Core.f3_celda
        { mtx_s with slots_n := mtx_s.slots_n.map (fun s => { s with token_tgt := some (resolverNucleo s.token_src) }) }
        k c ⟨k, "", none, "normal", none⟩ =
        ⟨k, t, (if (ClasificadorGramatical.clasificar t).1 = TokenCategoria.NUCLEO then
          some (resolverNucleo t) else none), "normal", none⟩ := by
      unfold Core.f3_celda
      dsimp only
      rw [hlocP]
      by_cases hcat : (ClasificadorGramatical.clasificar t).1 = TokenCategoria.NUCLEO
      · rw [if_pos hcat] at hcslot
        obtain ⟨j, hj1, hj2⟩ := hcslot
        have hslot : ({ mtx_s with slots_n := mtx_s.slots_n.map (fun s => { s with token_tgt := some (resolverNucleo s.token_src) }) } :
              MatrizFuente).slots_n[j]? =
            some ⟨t, (ClasificadorGramatical.clasificar t).2, k, TokenStatus.PENDIENTE,
              some (resolverNucleo t), none⟩ := by
          show (mtx_s.slots_n.map _)[j]? = _
          rw [List.getElem?_map, hj2]
          rfl
        rw [if_pos hcat, hj1]
        dsimp only
        rw [hslot]
        dsimp only
        rw [hcsrc]
      · rw [if_neg hcat] at hcslot
        obtain ⟨j, hj1, hj2⟩ := hcslot
        rw [if_neg hcat, hj1]
        dsimp only
        rw [hcsrc]
    have hget := faseMapeo_get_en hmt2 k c hc
    rw [Nat.zero_add] at hget
    rw [hget, nueva_get _ k (by show k < mtx_s.celdas.length; omega),
      Option.map_some', hf3]

theorem faseParticulas_existe (ms : MatrizFuente) (g : Glosario)
    (sps : List SlotP) (mt : MatrizTarget)
    (h : ∀ sp ∈ sps, sp.es_bloqueado = false → sp.pos_index < mt.celdas.length) :
    ∃ mt3, Core.faseParticulas ms g mt sps = some mt3 := by
  induction sps generalizing mt with
  | nil => exact ⟨mt, rfl⟩
  | cons sp rest ih =>
    by_cases hb : sp.es_bloqueado = true
    · obtain ⟨mt3, hmt3⟩ := ih mt (fun x hx hbx => h x (List.mem_cons_of_mem _ hx) hbx)
      refine ⟨mt3, ?_⟩
      show (Core.f4_paso ms g mt sp).bind _ = some mt3
      unfold Core.f4_paso
      rw [if_pos hb]
      exact hmt3
    · have hb' : sp.es_bloqueado = false := by simpa using hb
      obtain ⟨mta, hmta⟩ := modificaCelda_existe mt sp.pos_index
        (fun c => { c with token_tgt := some (resolverParticula sp.token_src) })
        (h sp (List.mem_cons_self _ _) hb')
      have hlen := modificaCelda_longitud hmta
      obtain ⟨mt3, hmt3⟩ := ih mta (fun x hx hbx => by
        rw [hlen]
        exact h x (List.mem_cons_of_mem _ hx) hbx)
      refine ⟨mt3, ?_⟩
      show (Core.f4_paso ms g mt sp).bind _ = some mt3
      unfold Core.f4_paso
      rw [if_neg hb]
      show (mt.modificaCelda sp.pos_index
        (fun c => { c with token_tgt := some (resolverParticula sp.token_src) })).bind _ = some mt3
      rw [hmta]
      exact hmt3

theorem faseParticulas_escribe {ms : MatrizFuente} {g : Glosario}
    {sps : List SlotP} {mt mt' : MatrizTarget}
    (h : Core.faseParticulas ms g mt sps = some mt') (k : Nat) (v : String)
    (hval : ∀ sp ∈ sps, sp.es_bloqueado = false → sp.pos_index = k →
      resolverParticula sp.token_src = v)
    (hex : ∃ sp ∈ sps, sp.es_bloqueado = false ∧ sp.pos_index = k) :
    mt'.celdas[k]? = (mt.celdas[k]?).map (fun c => { c with token_tgt := some v }) := by
  induction sps generalizing mt with
  | nil =>
    obtain ⟨sp, hmem, _⟩ := hex
    cases hmem
  | cons sp rest ih =>
    unfold Core.faseParticulas at h
    rw [Option.bind_eq_some] at h
    obtain ⟨mta, h2, h⟩ := h
    by_cases hw : sp.es_bloqueado = false ∧ sp.pos_index = k
    · have hv := hval sp (List.mem_cons_self _ _) hw.1 hw.2
      have hb : ¬(sp.es_bloqueado = true) := by simp [hw.1]
      unfold Core.f4_paso at h2
      rw [if_neg hb] at h2
      have h2' : mt.modificaCelda sp.pos_index
          (fun c => { c with token_tgt := some (resolverParticula sp.token_src) }) =
          some mta := h2
      rw [hw.2, hv] at h2'
      have hmta := modificaCelda_get_mismo h2'
      by_cases hex2 : ∃ sp' ∈ rest, sp'.es_bloqueado = false ∧ sp'.pos_index = k
      · have hrec := ih h (fun x hx => hval x (List.mem_cons_of_mem _ hx)) hex2
        rw [hrec, hmta]
        cases mt.celdas[k]? <;> rfl
      · have hnw : ∀ sp' ∈ rest, sp'.es_bloqueado = false → sp'.pos_index ≠ k := by
          intro x hx hbx hpx
          exact hex2 ⟨x, hx, hbx, hpx⟩
        rw [faseParticulas_get_fuera h k hnw, hmta]
    · have hmta : mta.celdas[k]? = mt.celdas[k]? := by
        unfold Core.f4_paso at h2
        by_cases hb : sp.es_bloqueado = true
        · rw [if_pos hb] at h2
          injection h2 with h2
          rw [← h2]
        · rw [if_neg hb] at h2
          have hb' : sp.es_bloqueado = false := by simpa using hb
          have hpos : sp.pos_index ≠ k := fun hp => hw ⟨hb', hp⟩
          have h2' : mt.modificaCelda sp.pos_index
              (fun c => { c with token_tgt := some (resolverParticula sp.token_src) }) =
              some mta := h2
          exact modificaCelda_get_otro h2' k hpos
      have hex' : ∃ sp' ∈ rest, sp'.es_bloqueado = false ∧ sp'.pos_index = k := by
        obtain ⟨x, hx, hprop⟩ := hex
        rcases List.mem_cons.mp hx with hxe | hxr
        · exact absurd (hxe ▸ hprop) hw
        · exact ⟨x, hxr, hprop⟩
      have hrec := ih h (fun x hx => hval x (List.mem_cons_of_mem _ hx)) hex'
      rw [hrec, hmta]

-- ══════════════════════════════════════════════════════════════
-- Helper lemmas: classifier dichotomy and clean resolutions
-- ══════════════════════════════════════════════════════════════

theorem clasificar_dicotomia (t : String) :
    (ClasificadorGramatical.clasificar t).1 = TokenCategoria.PARTICULA ∨
    (ClasificadorGramatical.clasificar t).1 = TokenCategoria.NUCLEO := by
  unfold ClasificadorGramatical.clasificar
  dsimp only
  split_ifs <;> first
    | (left; rfl)
    | (right; rfl)

theorem lookup_valor {α β : Type} [BEq α] {l : List (α × β)} {k : α} {v : β}
    (h : l.lookup k = some v) : v ∈ l.map Prod.snd := by
  induction l with
  | nil => cases h
  | cons p rest ih =>
    obtain ⟨a, b⟩ := p
    cases hkb : k == a with
    | true =>
      have h' : some b = some v := by
        rw [show ((a, b) :: rest).lookup k =
          (match k == a with | true => some b | false => rest.lookup k) from rfl, hkb] at h
        exact h
      injection h' with h'
      rw [← h']
      exact List.mem_cons_self _ _
    | false =>
      have h' : rest.lookup k = some v := by
        rw [show ((a, b) :: rest).lookup k =
          (match k == a with | true => some b | false => rest.lookup k) from rfl, hkb] at h
        exact h
      exact List.mem_cons_of_mem _ (ih h')

theorem transliterar_sin_espacio {t : String}
    (h : t.data.all (fun c => !(c == ' ')) = true) :
    (transliterar t).data.all (fun c => !(c == ' ')) = true := by
  rw [List.all_eq_true] at h ⊢
  intro c hc
  have hc' : c ∈ t.data.map (fun c => (MAPA.lookup c).getD c) := hc
  obtain ⟨c0, hc0, hmap⟩ := List.mem_map.mp hc'
  cases hl : MAPA.lookup c0 with
  | none =>
    rw [hl] at hmap
    have hce : c0 = c := hmap
    rw [← hce]
    exact h c0 hc0
  | some d =>
    rw [hl] at hmap
    have hce : d = c := hmap
    have hd : d ∈ MAPA.map Prod.snd := lookup_valor hl
    have hall : (MAPA.map Prod.snd).all (fun c => !(c == ' ')) = true := by decide
    rw [← hce]
    exact List.all_eq_true.mp hall d hd

theorem radical_limpio {t : String} (h : tokenLimpio t = true)
    (cat : CategoriaGramatical) :
    tokenLimpio (GeneradorNeologismos.radical t cat) = true := by
  unfold tokenLimpio at h ⊢
  rw [Bool.and_eq_true] at h
  obtain ⟨h1, h2⟩ := h
  have hdata : (GeneradorNeologismos.radical t cat).data =
      ((transliterar t).data.reverse.dropWhile (fun c => c == '-')).reverse ++ "-ado".data := by
    show (String.mk _ ++ ("-ado" : String)).data = _
    rw [String.data_append]
  rw [Bool.and_eq_true]
  constructor
  · have hne : (GeneradorNeologismos.radical t cat).data ≠ [] := by
      rw [hdata]
      intro hnil
      have := List.append_eq_nil.mp hnil
      cases this.2
    cases hrad : GeneradorNeologismos.radical t cat == "" with
    | false => rfl
    | true =>
      exfalso
      apply hne
      have : GeneradorNeologismos.radical t cat = "" := eq_of_beq hrad
      rw [this]
  · rw [List.all_eq_true]
    intro c hc
    rw [hdata] at hc
    rcases List.mem_append.mp hc with hcl | hcr
    · have hc2 : c ∈ (transliterar t).data.reverse.dropWhile (fun c => c == '-') :=
        List.mem_reverse.mp hcl
      have hc3 : c ∈ (transliterar t).data.reverse :=
        (List.dropWhile_sublist _).subset hc2
      have hc4 : c ∈ (transliterar t).data := List.mem_reverse.mp hc3
      exact List.all_eq_true.mp (transliterar_sin_espacio h2) c hc4
    · have hall : "-ado".data.all (fun c => !(c == ' ')) = true := by decide
      exact List.all_eq_true.mp hall c hcr

theorem resolverNucleo_limpio {t : String} (h : tokenLimpio t = true) :
    tokenLimpio (resolverNucleo t) = true := by
  unfold resolverNucleo
  cases hl : ProcesadorNucleos.etimologia.lookup (pyLower t) with
  | some v =>
    have hv : v ∈ ProcesadorNucleos.etimologia.map Prod.snd := lookup_valor hl
    have hall : (ProcesadorNucleos.etimologia.map Prod.snd).all tokenLimpio = true := by
      decide
    exact List.all_eq_true.mp hall v hv
  | none => exact radical_limpio h _

theorem resolverParticula_limpia {t : String} (h : tokenLimpio t = true) :
    tokenLimpio (resolverParticula t) = true := by
  unfold resolverParticula
  cases hl : ProcesadorParticulas.dic.lookup (pyLower t) with
  | some v =>
    have hv : v ∈ ProcesadorParticulas.dic.map Prod.snd := lookup_valor hl
    have hall : (ProcesadorParticulas.dic.map Prod.snd).all tokenLimpio = true := by
      decide
    exact List.all_eq_true.mp hall v hv
  | none => exact h

theorem resolverToken_limpio {t : String} (h : tokenLimpio t = true) :
    tokenLimpio (resolverToken t) = true := by
  unfold resolverToken
  by_cases hc : (ClasificadorGramatical.clasificar t).1 = TokenCategoria.PARTICULA
  · rw [if_pos hc]
    exact resolverParticula_limpia h
  · rw [if_neg hc]
    exact resolverNucleo_limpio h

-- ══════════════════════════════════════════════════════════════
-- Helper lemmas: the registration pass keeps every entry PENDING
-- ══════════════════════════════════════════════════════════════

theorem pendientes_vacio : TodasPendientes Glosario.vacio := by
  intro t e h
  exact Option.noConfusion h

theorem fase_a_bucle_pendientes
    {lote : List (String × TokenCategoria × CategoriaGramatical)}
    {g : Glosario} {i : Nat} (h : TodasPendientes g) :
    TodasPendientes (Glosario.fase_a_bucle g i lote) := by
  induction lote generalizing g i with
  | nil => exact h
  | cons p rest ih =>
    obtain ⟨tok, cat, gram⟩ := p
    unfold Glosario.fase_a_bucle
    dsimp only
    apply ih
    intro t e hfind
    cases hg : g.obtener_entrada tok with
    | none =>
      rw [hg] at hfind
      dsimp only at hfind
      have hfind' : dictBusca (dictPon g.entradas tok
          (EntradaGlosario.nueva tok cat [i])) t = some e := hfind
      rw [dictBusca_dictPon] at hfind'
      by_cases htt : tok = t
      · rw [if_pos htt] at hfind'
        injection hfind' with hf
        rw [← hf]
        rfl
      · rw [if_neg htt] at hfind'
        exact h t e hfind'
    | some e0 =>
      rw [hg] at hfind
      dsimp only at hfind
      have hfind' : dictBusca (dictPon g.entradas tok
          { e0 with ocurrencias := e0.ocurrencias ++ [i] }) t = some e := hfind
      rw [dictBusca_dictPon] at hfind'
      by_cases htt : tok = t
      · rw [if_pos htt] at hfind'
        injection hfind' with hf
        rw [← hf]
        exact h tok e0 hg
      · rw [if_neg htt] at hfind'
        exact h t e hfind'

theorem registrar_pendientes (g : Glosario) (tokens : List String)
    (h : TodasPendientes g) : TodasPendientes (registrarTokens g tokens) :=
  fase_a_bucle_pendientes h

theorem coherente_de_pendientes {g : Glosario} (h : TodasPendientes g) :
    GlosarioCoherente g := by
  intro t e hf hst
  rw [h t e hf] at hst
  cases hst

-- ══════════════════════════════════════════════════════════════
-- Helper lemmas: full pipeline characterization without locutions
-- ══════════════════════════════════════════════════════════════

theorem pipeline_celdas {tokens : List String} {g : Glosario}
    (hGC : GlosarioCoherente g) :
    ∃ cr ms' g1,
      Core.procesar_oracion g (construirMatrizFuente tokens) = some (cr, ms', g1) ∧
      cr.exito = true ∧ cr.mensaje = "OK" ∧
      (∃ mt3, cr.mtx_t = some mt3 ∧ mt3.celdas.length = tokens.length ∧
        (∀ k t, tokens[k]? = some t →
          mt3.celdas[k]? =
            some (⟨k, t, some (resolverToken t), "normal", none⟩ : CeldaMatriz))) ∧
      (∀ t0, ProcesadorNucleos.etimologia.lookup (pyLower t0) ≠ none →
        g1.obtener_entrada t0 = g.obtener_entrada t0) := by
  have hE := construir_estructura tokens
  obtain ⟨hloc, hlen, hcel, hsn, hsp⟩ := construir_estructura tokens
  have hnb : ∀ s ∈ (construirMatrizFuente tokens).slots_n, s.es_bloqueado = false := by
    intro s hs
    obtain ⟨t, _, hse, _⟩ := hsn s hs
    rw [hse]
    rfl
  obtain ⟨g1, hF2, hGC1, hpres⟩ := faseNucleos_coherente
    (MatrizTarget.nueva (construirMatrizFuente tokens).size) hGC hnb
  obtain ⟨mt2, hF3, hlen2, hcells2⟩ := faseMapeo_estructura hE
  obtain ⟨mt3, hF4⟩ := faseParticulas_existe
    { construirMatrizFuente tokens with slots_n := (construirMatrizFuente tokens).slots_n.map (fun s => { s with token_tgt := some (resolverNucleo s.token_src) }) }
    g1 (construirMatrizFuente tokens).slots_p mt2
    (fun sp hsp2 hb => by
      obtain ⟨t, htk, _, _⟩ := hsp sp hsp2
      rw [hlen2]
      exact (List.getElem?_eq_some.mp htk).1)
  refine ⟨⟨true, some mt3, "OK"⟩,
    { construirMatrizFuente tokens with slots_n := (construirMatrizFuente tokens).slots_n.map (fun s => { s with token_tgt := some (resolverNucleo s.token_src) }) },
    g1, ?_, rfl, rfl, ⟨mt3, rfl, ?_, ?_⟩, hpres⟩
  · show (Core.faseNucleos g (MatrizTarget.nueva (construirMatrizFuente tokens).size)
      (construirMatrizFuente tokens).slots_n).bind _ = _
    rw [hF2, Option.some_bind]
    dsimp only
    rw [hF3, Option.some_bind]
    rw [hF4, Option.map_some']
  · rw [faseParticulas_longitud hF4]
    exact hlen2
  · intro k t hkt
    by_cases hcat : (ClasificadorGramatical.clasificar t).1 = TokenCategoria.NUCLEO
    · have hnw : ∀ sp ∈ (construirMatrizFuente tokens).slots_p,
          sp.es_bloqueado = false → sp.pos_index ≠ k := by
        intro sp hmem _ hpk
        obtain ⟨t2, ht2, _, hcat2⟩ := hsp sp hmem
        rw [hpk, hkt] at ht2
        injection ht2 with ht2
        exact hcat2 (ht2 ▸ hcat)
      rw [faseParticulas_get_fuera hF4 k hnw, hcells2 k t hkt, if_pos hcat]
      have hres : resolverToken t = resolverNucleo t := by
        unfold resolverToken
        rw [if_neg (fun hp => by rw [hcat] at hp; cases hp)]
      rw [hres]
    · obtain ⟨c, hc, _, _, _, _, hcslot⟩ := hcel k t hkt
      rw [if_neg hcat] at hcslot
      obtain ⟨j, hj1, hj2⟩ := hcslot
      have hmemsp : SlotP.nuevo t (ClasificadorGramatical.clasificar t).2 k ∈
          (construirMatrizFuente tokens).slots_p := List.getElem?_mem hj2
      have hpart : (ClasificadorGramatical.clasificar t).1 = TokenCategoria.PARTICULA := by
        rcases clasificar_dicotomia t with hp | hn
        · exact hp
        · exact absurd hn hcat
      have hex : ∃ sp ∈ (construirMatrizFuente tokens).slots_p,
          sp.es_bloqueado = false ∧ sp.pos_index = k :=
        ⟨SlotP.nuevo t (ClasificadorGramatical.clasificar t).2 k, hmemsp, rfl, rfl⟩
      have hval : ∀ sp ∈ (construirMatrizFuente tokens).slots_p,
          sp.es_bloqueado = false → sp.pos_index = k →
          resolverParticula sp.token_src = resolverToken t := by
        intro sp hmem _ hpk
        obtain ⟨t2, ht2, hspe, hcat2⟩ := hsp sp hmem
        rw [hpk, hkt] at ht2
        injection ht2 with ht2
        rw [hspe]
        show resolverParticula t2 = resolverToken t
        rw [← ht2]
        unfold resolverToken
        rw [if_pos hpart]
      rw [faseParticulas_escribe hF4 k (resolverToken t) hval hex,
        hcells2 k t hkt, if_neg hcat]
      rfl

theorem palabras_de_celdas {cels : List CeldaMatriz} {tokens : List String}
    (hlen : cels.length = tokens.length)
    (hcells : ∀ (k : Nat) (t : String), tokens[k]? = some t →
      ∃ c : CeldaMatriz, cels[k]? = some c ∧ c.token_src = t ∧
        c.token_tgt = some (resolverToken t) ∧ c.tipo = "normal")
    (hlimpio : ∀ t ∈ tokens, tokenLimpio t = true) :
    (cels.filter (fun c => !c.es_absorbido)).map
        (fun c => pyOCadena c.token_tgt ("[" ++ c.token_src ++ "]")) =
      tokens.map resolverToken := by
  induction tokens generalizing cels with
  | nil =>
    have : cels = [] := List.length_eq_zero.mp hlen
    rw [this]
    rfl
  | cons t rest ih =>
    cases cels with
    | nil => cases hlen
    | cons c0 cels' =>
      obtain ⟨c, hc, hsrc, htgt, htipo⟩ := hcells 0 t List.getElem?_cons_zero
      have hc0 : c = c0 := by
        rw [List.getElem?_cons_zero] at hc
        injection hc with hc
        exact hc.symm
      subst hc0
      have habs : c.es_absorbido = false := by
        unfold CeldaMatriz.es_absorbido
        rw [htipo]
        rfl
      have hkeep : (!c.es_absorbido) = true := by rw [habs]; rfl
      rw [List.filter_cons, if_pos hkeep, List.map_cons, List.map_cons]
      have hlimpiot := hlimpio t (List.mem_cons_self _ _)
      have hword : pyOCadena c.token_tgt ("[" ++ c.token_src ++ "]") = resolverToken t := by
        rw [htgt]
        unfold pyOCadena
        dsimp only
        have hne : ¬(resolverToken t = "") := by
          have := resolverToken_limpio hlimpiot
          unfold tokenLimpio at this
          rw [Bool.and_eq_true] at this
          intro heq
          rw [heq] at this
          cases this.1
        rw [if_neg hne]
      rw [hword]
      have hrec := ih (by simpa using hlen)
        (fun k tk hk => by
          obtain ⟨cc, hcc, h1, h2, h3⟩ := hcells (k + 1) tk
            (by rw [List.getElem?_cons_succ]; exact hk)
          rw [List.getElem?_cons_succ] at hcc
          exact ⟨cc, hcc, h1, h2, h3⟩)
        (fun tk hk => hlimpio tk (List.mem_cons_of_mem _ hk))
      rw [hrec]

-- ══════════════════════════════════════════════════════════════
-- Claim C6
-- ══════════════════════════════════════════════════════════════

/-- Counterexample to claim C6: on the scenario sentence itself — five
clean tokens with the unregistered lexicon noun "kitab" at position 2,
registered into an empty glossary and processed exactly as the
per-sentence pipeline does — the serializer's position-2 word is indeed
"libro", but the glossary entry for "kitab" ends the run still PENDING,
not ASSIGNED: a fixed-lexicon hit never writes the glossary. -/
theorem C6_kitab_contraejemplo :
    (palabrasResultado (Core.procesar_oracion (registrarTokens Glosario.vacio oracionKitab)
      (construirMatrizFuente oracionKitab)))[2]? = some "libro" ∧
    estadoEntrada (Core.procesar_oracion (registrarTokens Glosario.vacio oracionKitab)
      (construirMatrizFuente oracionKitab)) "kitab" = some TokenStatus.PENDIENTE ∧
    ¬(estadoEntrada (Core.procesar_oracion (registrarTokens Glosario.vacio oracionKitab)
      (construirMatrizFuente oracionKitab)) "kitab" = some TokenStatus.ASIGNADO) := by
  decide

/-- Claim C6 (amended): for every 5-token sentence of clean tokens
(non-empty, space-free) whose position-2 token is "kitab", registering the
batch into an empty glossary and processing the built source matrix
succeeds; the serializer's word list is exactly the per-token pipeline
resolution, so its position-2 word is the lexicon value "libro", it has 5
clean words, and the serialized output is their space-join (hence "libro"
is the position-2 token of the output); but the glossary entry for
"kitab" ends the translation still PENDING — the fixed-lexicon hit
returns "libro" without assigning the glossary entry, so the claim's
ASSIGNED half fails while the output half holds. -/
theorem C6_kitab_enmendada (tokens : List String)
    (hlen5 : tokens.length = 5) (hk2 : tokens[2]? = some "kitab")
    (hlimpio : tokens.all tokenLimpio = true) :
    palabrasResultado (Core.procesar_oracion (registrarTokens Glosario.vacio tokens)
        (construirMatrizFuente tokens)) = tokens.map resolverToken ∧
    (palabrasResultado (Core.procesar_oracion (registrarTokens Glosario.vacio tokens)
        (construirMatrizFuente tokens)))[2]? = some "libro" ∧
    (palabrasResultado (Core.procesar_oracion (registrarTokens Glosario.vacio tokens)
        (construirMatrizFuente tokens))).length = 5 ∧
    (palabrasResultado (Core.procesar_oracion (registrarTokens Glosario.vacio tokens)
        (construirMatrizFuente tokens))).all tokenLimpio = true ∧
    (matrizResultado (Core.procesar_oracion (registrarTokens Glosario.vacio tokens)
        (construirMatrizFuente tokens))).map Core.serializar_resultado =
      some (String.intercalate " "
        (palabrasResultado (Core.procesar_oracion (registrarTokens Glosario.vacio tokens)
          (construirMatrizFuente tokens)))) ∧
    estadoEntrada (Core.procesar_oracion (registrarTokens Glosario.vacio tokens)
        (construirMatrizFuente tokens)) "kitab" = some TokenStatus.PENDIENTE := by
  have hTP : TodasPendientes (registrarTokens Glosario.vacio tokens) :=
    registrar_pendientes _ _ pendientes_vacio
  have hGC := coherente_de_pendientes hTP
  obtain ⟨cr, ms', g1, hrun, hex, hmsg, ⟨mt3, hmt, hlen3, hcells3⟩, hpres⟩ :=
    pipeline_celdas hGC
  rw [hrun]
  have hmr : matrizResultado (some (cr, ms', g1)) = some mt3 := by
    unfold matrizResultado
    exact hmt
  have hpr : palabrasResultado (some (cr, ms', g1)) = palabras mt3 := by
    unfold palabrasResultado
    rw [hmr]
  have hpal : palabrasResultado (some (cr, ms', g1)) = tokens.map resolverToken := by
    rw [hpr]
    unfold palabras
    apply palabras_de_celdas hlen3
    · intro k t hk
      exact ⟨⟨k, t, some (resolverToken t), "normal", none⟩, hcells3 k t hk, rfl, rfl, rfl⟩
    · intro t ht
      exact List.all_eq_true.mp hlimpio t ht
  refine ⟨hpal, ?_, ?_, ?_, ?_, ?_⟩
  · rw [hpal, List.getElem?_map, hk2]
    decide
  · rw [hpal, List.length_map, hlen5]
  · rw [hpal, List.all_eq_true]
    intro w hw
    obtain ⟨t, ht, hwt⟩ := List.mem_map.mp hw
    rw [← hwt]
    exact resolverToken_limpio (List.all_eq_true.mp hlimpio t ht)
  · rw [hmr, hpr, Option.map_some']
    rfl
  · have hlu : ProcesadorNucleos.etimologia.lookup (pyLower "kitab") ≠ none := by decide
    have hmem : "kitab" ∈ tokens := List.getElem?_mem hk2
    have hbatch : ∃ x ∈ tokens.map (fun t =>
        let cg := ClasificadorGramatical.clasificar t
        (t, cg.1, cg.2)), x.1 = "kitab" := by
      refine ⟨("kitab", (ClasificadorGramatical.clasificar "kitab").1,
        (ClasificadorGramatical.clasificar "kitab").2), ?_, rfl⟩
      exact List.mem_map_of_mem _ hmem
    have hsome : ((registrarTokens Glosario.vacio tokens).obtener_entrada "kitab").isSome :=
      fase_a_bucle_existencia hbatch
    obtain ⟨e, he⟩ := Option.isSome_iff_exists.mp hsome
    have hstat := hTP "kitab" e he
    unfold estadoEntrada glosarioResultado
    dsimp only
    rw [hpres "kitab" hlu, he, Option.map_some', hstat]

/-- Witness for the amended claim C6 at the concrete scenario sentence
["qalb", "fi", "kitab", "wa", "aql"]. -/
theorem C6_kitab_enmendada_witness :
    oracionKitab.length = 5 ∧ oracionKitab[2]? = some "kitab" ∧
    oracionKitab.all tokenLimpio = true ∧
    (palabrasResultado (Core.procesar_oracion (registrarTokens Glosario.vacio oracionKitab)
      (construirMatrizFuente oracionKitab)))[2]? = some "libro" ∧
    estadoEntrada (Core.procesar_oracion (registrarTokens Glosario.vacio oracionKitab)
      (construirMatrizFuente oracionKitab)) "kitab" = some TokenStatus.PENDIENTE :=
  ⟨by decide, by decide, by decide,
   (C6_kitab_enmendada oracionKitab (by decide) (by decide) (by decide)).2.1,
   (C6_kitab_enmendada oracionKitab (by decide) (by decide) (by decide)).2.2.2.2.2⟩
